import Mathlib

/-!
Verification development for the mesh-segmentation core (`geodesics.py`,
`regions.py`, `main.py`).

Modelling conventions, used throughout:

* 3D coordinates live in a linearly ordered field `K` (instantiated at `ℚ`
  for concrete evaluations; the Python floats are modelled by exact field
  arithmetic).  The square root used for Euclidean lengths is transcendental,
  so functions that need it take an explicit `sqrtFn : K → K` parameter; at
  `K := ℝ`, `sqrtFn := Real.sqrt` gives the exact real-number model.
* Python `set[int]` becomes `Finset ℕ`.  Where Python iterates over a set of
  small ints we iterate in ascending order (`sortAsc`), matching CPython's
  iteration order for small integers.
* Python dicts keyed by strings become association lists
  (`List (String × _)`); membership tests use `List.lookup`, and dict
  insertion order is the list order.
* Loops whose iteration count the kernel cannot see structurally take a
  `fuel : ℕ` argument.  Every terminating Python run is reproduced by every
  sufficiently large fuel; exhausted fuel yields the loop state reached so far
  (for the breadth-first fills) or an explicit `outOfFuel` marker (for the
  Dijkstra search, whose Python loop can actually diverge for penalty
  strengths below `-1`).
* Out-of-range list writes in VTK (`vtkIntArray.SetValue` etc.) are undefined
  behaviour; they are modelled as no-ops (`List.set` out of range).  Reading a
  missing entry uses the container's default.  A Python access that raises
  `IndexError` on the modelled control path is modelled with `Except`.
* The VTK point locator (`vtkPointLocator.FindClosestPoint`) returns a closest
  vertex; we model it as the least-index minimiser of the squared distance.
-/

namespace Segmenter

/-- 3D vector/point over the coordinate field. -/
abbrev V3 (K : Type) := K × K × K

/-- `dot` from geodesics.py. -/
def dot {K : Type} [LinearOrderedField K] (a b : V3 K) : K :=
  a.1 * b.1 + a.2.1 * b.2.1 + a.2.2 * b.2.2

/-- `sub` from geodesics.py. -/
def sub {K : Type} [LinearOrderedField K] (a b : V3 K) : V3 K :=
  (a.1 - b.1, a.2.1 - b.2.1, a.2.2 - b.2.2)

/-- `add` from geodesics.py. -/
def add {K : Type} [LinearOrderedField K] (a b : V3 K) : V3 K :=
  (a.1 + b.1, a.2.1 + b.2.1, a.2.2 + b.2.2)

/-- `scale` from geodesics.py. -/
def scale {K : Type} [LinearOrderedField K] (a : V3 K) (s : K) : V3 K :=
  (a.1 * s, a.2.1 * s, a.2.2 * s)

/-- `cross` from geodesics.py. -/
def cross {K : Type} [LinearOrderedField K] (a b : V3 K) : V3 K :=
  (a.2.1 * b.2.2 - a.2.2 * b.2.1,
   a.2.2 * b.1 - a.1 * b.2.2,
   a.1 * b.2.1 - a.2.1 * b.1)

/-- `normalize` from geodesics.py; `sqrtFn` models the float square root. -/
def normalize {K : Type} [LinearOrderedField K] (sqrtFn : K → K) (vec : V3 K) : V3 K :=
  let mag := sqrtFn (vec.1 * vec.1 + vec.2.1 * vec.2.1 + vec.2.2 * vec.2.2)
  if mag = 0 then (0, 0, 0)
  else (vec.1 / mag, vec.2.1 / mag, vec.2.2 / mag)

/-- `plane_side` from geodesics.py: sign of `dot(normal, point - plane_point)`,
with an exactly-zero value classified as `+1`. -/
def plane_side {K : Type} [LinearOrderedField K]
    (plane_point normal point : V3 K) : Int :=
  if 0 ≤ dot normal (sub point plane_point) then 1 else -1

/-- A `vtkPolyData`: points (possibly unset), polygon cells, triangle-strip
cells, and line cells.  A mesh surface uses `polys`/`strips`; a geodesic
polyline uses `lines`.  (VTK's `GetLines()` always returns a cell array, so
`lines` is a plain list; `GetPoints()` can be null, hence the `Option`.) -/
structure VPolyData (K : Type) where
  pts : Option (List (V3 K))
  polys : List (List Nat)
  strips : List (List Nat)
  lines : List (List Nat)
deriving DecidableEq

/-- `GetNumberOfPoints`. -/
def numberOfPoints {K : Type} (surface : VPolyData K) : Nat :=
  (surface.pts.getD []).length

/-- `GetPoint i` (in-range accesses only are exercised by the source). -/
def getPoint {K : Type} [LinearOrderedField K] (surface : VPolyData K) (i : Nat) : V3 K :=
  (surface.pts.getD []).getD i (0, 0, 0)

/-- Squared Euclidean distance (the locator's comparison key). -/
def d2 {K : Type} [LinearOrderedField K] (p q : V3 K) : K :=
  dot (sub p q) (sub p q)

/-- `vtkPointLocator.FindClosestPoint`, modelled as the least-index minimiser
of the squared distance (`build_point_locator` + `closest_point_id`). -/
def findClosestPoint {K : Type} [LinearOrderedField K]
    (surface : VPolyData K) (p : V3 K) : Nat :=
  let pts := surface.pts.getD []
  (List.range pts.length).foldl
    (fun best i =>
      if d2 (pts.getD i (0, 0, 0)) p < d2 (pts.getD best (0, 0, 0)) p then i else best)
    0

/-- In-place update of one entry of an adjacency table (no-op out of range,
matching the fact that the source only writes in-range entries). -/
def modifyIdx (l : List (Finset Nat)) (i : Nat) (f : Finset Nat → Finset Nat) :
    List (Finset Nat) :=
  l.set i (f (l.getD i ∅))

/-- One unordered vertex pair of a cell: `adjacency[a].add(b); adjacency[b].add(a)`. -/
def addPair (adjacency : List (Finset Nat)) (a b : Nat) : List (Finset Nat) :=
  modifyIdx (modifyIdx adjacency a (insert b)) b (insert a)

/-- All index pairs `(ids[i], ids[j])` with `i < j` of a cell, in loop order. -/
def cellPairs : List Nat → List (Nat × Nat)
  | [] => []
  | a :: rest => rest.map (fun b => (a, b)) ++ cellPairs rest

/-- `add_cell` from `_build_point_adjacency`: complete pairwise adjacency among
all vertices listed in one cell. -/
def add_cell (adjacency : List (Finset Nat)) (ids_list : List Nat) : List (Finset Nat) :=
  (cellPairs ids_list).foldl (fun adj pr => addPair adj pr.1 pr.2) adjacency

/-- `_build_point_adjacency` (defined identically in geodesics.py and
regions.py): vertex adjacency from polygon and strip cells with at least two
vertex ids. -/
def _build_point_adjacency {K : Type} (surface : VPolyData K) : List (Finset Nat) :=
  let init := List.replicate (numberOfPoints surface) (∅ : Finset Nat)
  let afterPolys := surface.polys.foldl
    (fun adj cell => if 2 ≤ cell.length then add_cell adj cell else adj) init
  surface.strips.foldl
    (fun adj cell => if 2 ≤ cell.length then add_cell adj cell else adj) afterPolys

/-- Insertion into an ascending list, the building block of the iteration
order used for modelled Python sets. -/
def insertAsc (a : Nat) : List Nat → List Nat
  | [] => [a]
  | b :: l => if a ≤ b then a :: b :: l else b :: insertAsc a l

instance : LeftCommutative insertAsc :=
  ⟨fun a b l => by
    induction l with
    | nil =>
      by_cases hab : a ≤ b <;> by_cases hba : b ≤ a <;>
        simp [insertAsc, hab, hba] <;> omega
    | cons c l ih =>
      by_cases hac : a ≤ c <;> by_cases hbc : b ≤ c
      · by_cases hab : a ≤ b <;> by_cases hba : b ≤ a <;>
          simp [insertAsc, hac, hbc, hab, hba] <;> omega
      · have hab : a ≤ b := by omega
        have hba : ¬ b ≤ a := by omega
        simp [insertAsc, hac, hbc, hab, hba]
      · have hab : ¬ a ≤ b := by omega
        have hba : b ≤ a := by omega
        simp [insertAsc, hac, hbc, hab, hba]
      · simp [insertAsc, hac, hbc, ih]⟩

/-- The elements of a finite vertex set in ascending order (CPython iterates
a set of small ints in ascending order). -/
def sortAsc (s : Finset Nat) : List Nat :=
  Multiset.foldr insertAsc [] s.val

/-- Neighbours of a vertex, iterated in ascending order. -/
def nbrsList (adjacency : List (Finset Nat)) (v : Nat) : List Nat :=
  sortAsc (adjacency.getD v ∅)

/-- One dequeue step of the flood fill: scan the neighbours of `current`,
marking and enqueueing each unvisited, unstopped neighbour. -/
def collect_scan (nbrs : List Nat) (stop : Nat → Bool) (visited : Finset Nat) :
    Finset Nat × List Nat :=
  nbrs.foldl
    (fun acc neighbor =>
      if neighbor ∈ acc.1 then acc
      else if stop neighbor then acc
      else (insert neighbor acc.1, acc.2 ++ [neighbor]))
    (visited, [])

/-- The breadth-first loop of `_collect_component`, with step fuel. -/
def collect_bfs (adjacency : List (Finset Nat)) (stop : Nat → Bool) :
    Nat → Finset Nat → List Nat → Finset Nat
  | 0, visited, _ => visited
  | _ + 1, visited, [] => visited
  | fuel + 1, visited, current :: rest =>
    let step := collect_scan (nbrsList adjacency current) stop visited
    collect_bfs adjacency stop fuel step.1 (rest ++ step.2)

/-- `_collect_component` from regions.py: breadth-first fill from `seed_id`
that never steps into `boundary_ids ∪ blocked_ids` (the seed itself is added
unconditionally).  Python's `blocked_ids=None` default is the empty set. -/
def _collect_component (fuel : Nat) (seed_id : Nat) (adjacency : List (Finset Nat))
    (boundary_ids blocked_ids : Finset Nat) : Finset Nat :=
  collect_bfs adjacency
    (fun v => decide (v ∈ boundary_ids) || decide (v ∈ blocked_ids))
    fuel {seed_id} [seed_id]

/-- Inner neighbour scan of `_find_non_boundary_seed`: the first unvisited
neighbour outside the stop set is returned (`Sum.inl`); stopped neighbours are
marked visited and enqueued. -/
def seed_scan (stop : Nat → Bool) :
    List Nat → Finset Nat → List Nat → Sum Nat (Finset Nat × List Nat)
  | [], visited, pushed => Sum.inr (visited, pushed)
  | neighbor :: rest, visited, pushed =>
    if neighbor ∈ visited then seed_scan stop rest visited pushed
    else if stop neighbor then seed_scan stop rest (insert neighbor visited) (pushed ++ [neighbor])
    else Sum.inl neighbor

/-- The breadth-first loop of `_find_non_boundary_seed`, with step fuel. -/
def seed_bfs (adjacency : List (Finset Nat)) (stop : Nat → Bool) :
    Nat → Finset Nat → List Nat → Option Nat
  | 0, _, _ => none
  | _ + 1, _, [] => none
  | fuel + 1, visited, current :: rest =>
    match seed_scan stop (nbrsList adjacency current) visited [] with
    | Sum.inl found => some found
    | Sum.inr (v, pushed) => seed_bfs adjacency stop fuel v (rest ++ pushed)

/-- `_find_non_boundary_seed` from regions.py: if `start_id` is outside
`boundary ∪ blocked` return it; otherwise search through the wall for the
first free vertex just past it. -/
def _find_non_boundary_seed (fuel : Nat) (start_id : Nat) (adjacency : List (Finset Nat))
    (boundary_ids blocked_ids : Finset Nat) : Option Nat :=
  if start_id ∉ boundary_ids ∧ start_id ∉ blocked_ids then some start_id
  else
    seed_bfs adjacency
      (fun v => decide (v ∈ boundary_ids) || decide (v ∈ blocked_ids))
      fuel {start_id} [start_id]

/-- The landmark dictionary: named 3D points, in insertion order. -/
abbrev Landmarks (K : Type) := List (String × V3 K)

/-- The stored geodesic polylines, keyed by name, in insertion order. -/
abbrev GeoLines (K : Type) := List (String × VPolyData K)

/-- Dict lookup on the landmark mapping. -/
def lookupLm {K : Type} (landmarks : Landmarks K) (k : String) : Option (V3 K) :=
  landmarks.lookup k

/-- `key in landmarks`. -/
def hasLm {K : Type} (landmarks : Landmarks K) (k : String) : Bool :=
  (lookupLm landmarks k).isSome

/-- `landmarks[key]` — only ever evaluated behind a presence check in the
source, so the default is never observable on the modelled paths. -/
def lmPoint {K : Type} [LinearOrderedField K] (landmarks : Landmarks K) (k : String) : V3 K :=
  (lookupLm landmarks k).getD (0, 0, 0)

/-- Dict lookup on the geodesic mapping (`geodesic_lines.get(key)`). -/
def lookupGeo {K : Type} (geodesic_lines : GeoLines K) (k : String) : Option (VPolyData K) :=
  geodesic_lines.lookup k

/-- `key in geodesic_lines`. -/
def hasGeo {K : Type} (geodesic_lines : GeoLines K) (k : String) : Bool :=
  (lookupGeo geodesic_lines k).isSome

/-- `tuple(geodesic_lines.keys())`. -/
def geoKeys {K : Type} (geodesic_lines : GeoLines K) : List String :=
  geodesic_lines.map (·.1)

/-- Componentwise `p0 + (p1 - p0) * t`, as written in `_collect_boundary_ids`. -/
def lerpW {K : Type} [LinearOrderedField K] (p0 p1 : V3 K) (t : K) : V3 K :=
  (p0.1 + (p1.1 - p0.1) * t,
   p0.2.1 + (p1.2.1 - p0.2.1) * t,
   p0.2.2 + (p1.2.2 - p0.2.2) * t)

/-- The four locator samples `_collect_boundary_ids` adds for one consecutive
point pair: both endpoints and the 1/3 and 2/3 interpolants. -/
def pairSamples {K : Type} [LinearOrderedField K] (surface : VPolyData K)
    (acc : Finset Nat) (p0 p1 : V3 K) : Finset Nat :=
  let acc := insert (findClosestPoint surface p0) acc
  let acc := insert (findClosestPoint surface p1) acc
  let acc := insert (findClosestPoint surface (lerpW p0 p1 (1 / 3))) acc
  insert (findClosestPoint surface (lerpW p0 p1 (2 / 3))) acc

/-- Samples of one line cell: every consecutive id pair of the cell (cells
with fewer than two ids contribute nothing, as in the source). -/
def cellSamples {K : Type} [LinearOrderedField K] (surface : VPolyData K)
    (pts : List (V3 K)) (cell : List Nat) (acc : Finset Nat) : Finset Nat :=
  (cell.zip cell.tail).foldl
    (fun acc pr => pairSamples surface acc (pts.getD pr.1 (0, 0, 0)) (pts.getD pr.2 (0, 0, 0)))
    acc

/-- `_collect_boundary_ids` from regions.py: dense vertex samples of the named
polylines; `none` as soon as a named polyline is missing or has no points.
(The `landmarks` parameter is unused, as in the source.) -/
def _collect_boundary_ids {K : Type} [LinearOrderedField K] (surface : VPolyData K)
    (_landmarks : Landmarks K) (geodesic_lines : GeoLines K)
    (boundary_keys : List String) : Option (Finset Nat) :=
  boundary_keys.foldlM
    (fun acc key =>
      match lookupGeo geodesic_lines key with
      | none => none
      | some polyline =>
        match polyline.pts with
        | none => none
        | some pts => some (polyline.lines.foldl (fun acc cell => cellSamples surface pts cell acc) acc))
    (∅ : Finset Nat)

/-- `_collect_available_boundary_ids` from regions.py: like
`_collect_boundary_ids` but silently skipping missing or point-free polylines. -/
def _collect_available_boundary_ids {K : Type} [LinearOrderedField K]
    (surface : VPolyData K) (geodesic_lines : GeoLines K)
    (boundary_keys : List String) : Finset Nat :=
  boundary_keys.foldl
    (fun acc key =>
      match lookupGeo geodesic_lines key with
      | none => acc
      | some polyline =>
        match polyline.pts with
        | none => acc
        | some pts => polyline.lines.foldl (fun acc cell => cellSamples surface pts cell acc) acc)
    (∅ : Finset Nat)

/-- `_polyline_midpoint_point` from regions.py. -/
def _polyline_midpoint_point {K : Type} [LinearOrderedField K]
    (polyline : VPolyData K) : Option (V3 K) :=
  match polyline.pts with
  | none => none
  | some pts => if pts.length = 0 then none else some (pts.getD (pts.length / 2) (0, 0, 0))

/-- `_seed_fallback_candidates` from regions.py: interpolations between the
seed and opposite landmarks at parameters 0.25, 0.45, 0.65, 0.85. -/
def _seed_fallback_candidates {K : Type} [LinearOrderedField K]
    (landmarks : Landmarks K) (seed_key opposite_key : String) : List (V3 K) :=
  match lookupLm landmarks seed_key, lookupLm landmarks opposite_key with
  | some a, some c =>
    ([1 / 4, 9 / 20, 13 / 20, 17 / 20] : List K).map
      (fun t =>
        (a.1 + (c.1 - a.1) * t,
         a.2.1 + (c.2.1 - a.2.1) * t,
         a.2.2 + (c.2.2 - a.2.2) * t))
  | _, _ => []

/-- Models the Python truthiness coercion `blocked_ids if blocked_ids else None`. -/
def optOfSet (b : Finset Nat) : Option (Finset Nat) :=
  if b = ∅ then none else some b

/-- `_collect_segment_component` from regions.py: boundary collection, then
the wrong-side flood from the opposite landmark, then the region flood from
the (possibly wall-crossing) seed. -/
def _collect_segment_component {K : Type} [LinearOrderedField K] (fuel : Nat)
    (surface : VPolyData K) (adjacency : List (Finset Nat)) (landmarks : Landmarks K)
    (geodesic_lines : GeoLines K) (boundary_keys : List String)
    (opposite_key seed_key : String) (blocked_ids : Option (Finset Nat))
    (seed_point : Option (V3 K)) : Option (Finset Nat) :=
  match _collect_boundary_ids surface landmarks geodesic_lines boundary_keys with
  | none => none
  | some boundary_ids =>
    let opposite_id := findClosestPoint surface (lmPoint landmarks opposite_key)
    let seed_source := seed_point.getD (lmPoint landmarks seed_key)
    let seed_id := findClosestPoint surface seed_source
    match _find_non_boundary_seed fuel opposite_id adjacency boundary_ids ∅ with
    | none => none
    | some opposite_seed =>
      let wrong_component := _collect_component fuel opposite_seed adjacency boundary_ids ∅
      let seedBlocked :=
        match blocked_ids with
        | none => wrong_component
        | some b => b ∪ wrong_component
      match _find_non_boundary_seed fuel seed_id adjacency boundary_ids seedBlocked with
      | none => none
      | some seed =>
        let blocked :=
          match blocked_ids with
          | none => wrong_component
          | some b => if b = ∅ then wrong_component else wrong_component ∪ b
        some (_collect_component fuel seed adjacency boundary_ids blocked)

/-- `_diagnose_segment_failure` from regions.py: re-runs the component search
and classifies the first failing step into a message. -/
def _diagnose_segment_failure {K : Type} [LinearOrderedField K] (fuel : Nat)
    (segment_id : Nat) (surface : VPolyData K) (adjacency : List (Finset Nat))
    (landmarks : Landmarks K) (geodesic_lines : GeoLines K)
    (boundary_keys : List String) (opposite_key seed_key : String)
    (blocked_ids : Option (Finset Nat)) (seed_point : Option (V3 K)) : String :=
  match _collect_boundary_ids surface landmarks geodesic_lines boundary_keys with
  | none => "Segment " ++ toString segment_id ++ " failed: missing boundary polyline"
  | some boundary_ids =>
    let opposite_id := findClosestPoint surface (lmPoint landmarks opposite_key)
    let seed_source := seed_point.getD (lmPoint landmarks seed_key)
    let seed_id := findClosestPoint surface seed_source
    match _find_non_boundary_seed fuel opposite_id adjacency boundary_ids ∅ with
    | none =>
      let reason :=
        if opposite_id ∈ boundary_ids then "opposite on boundary" else "opposite enclosed"
      "Segment " ++ toString segment_id ++ " failed: " ++ reason ++
        " (boundary=" ++ toString boundary_ids.card ++ ")"
    | some opposite_seed =>
      let wrong_component := _collect_component fuel opposite_seed adjacency boundary_ids ∅
      let seed_blocked :=
        match blocked_ids with
        | none => wrong_component
        | some b => if b = ∅ then wrong_component else wrong_component ∪ b
      match _find_non_boundary_seed fuel seed_id adjacency boundary_ids seed_blocked with
      | none =>
        let reason :=
          if seed_id ∈ boundary_ids then "seed on boundary"
          else if seed_id ∈ seed_blocked then "seed blocked"
          else "seed enclosed"
        "Segment " ++ toString segment_id ++ " failed: " ++ reason ++
          " (boundary=" ++ toString boundary_ids.card ++
          ", blocked=" ++ toString seed_blocked.card ++ ")"
      | some _ => "Segment " ++ toString segment_id ++ " failed: unknown"

/-- The ad-hoc debug dictionary built on failure; absent dict keys and
explicit `None` values are both modelled as `none`.  `boundary_ids` is the
Python `list(set)`, modelled in ascending order. -/
structure DebugPoints where
  boundary_ids : List Nat
  boundary_count : Option Nat
  blocked_count : Option Nat
  total_points : Option Nat
  seed_id : Option Nat
  opposite_id : Option Nat
  opposite_seed_id : Option Nat
  seed_candidate_id : Option Nat
deriving DecidableEq

/-- `_collect_failure_debug` from regions.py. -/
def _collect_failure_debug {K : Type} [LinearOrderedField K] (fuel : Nat)
    (surface : VPolyData K) (adjacency : List (Finset Nat)) (landmarks : Landmarks K)
    (geodesic_lines : GeoLines K) (boundary_keys : List String)
    (opposite_key seed_key : String) (blocked_ids : Option (Finset Nat))
    (seed_point : Option (V3 K)) : Option DebugPoints :=
  match _collect_boundary_ids surface landmarks geodesic_lines boundary_keys with
  | none => none
  | some boundary_ids =>
    let opposite_id := findClosestPoint surface (lmPoint landmarks opposite_key)
    let seed_source := seed_point.getD (lmPoint landmarks seed_key)
    let seed_id := findClosestPoint surface seed_source
    match _find_non_boundary_seed fuel opposite_id adjacency boundary_ids ∅ with
    | none =>
      some
        { boundary_ids := sortAsc boundary_ids
          boundary_count := some boundary_ids.card
          blocked_count := none
          total_points := some adjacency.length
          seed_id := some seed_id
          opposite_id := some opposite_id
          opposite_seed_id := none
          seed_candidate_id := none }
    | some opposite_seed =>
      let wrong_component := _collect_component fuel opposite_seed adjacency boundary_ids ∅
      let seed_blocked :=
        match blocked_ids with
        | none => wrong_component
        | some b => if b = ∅ then wrong_component else wrong_component ∪ b
      let seed := _find_non_boundary_seed fuel seed_id adjacency boundary_ids seed_blocked
      some
        { boundary_ids := sortAsc boundary_ids
          boundary_count := some boundary_ids.card
          blocked_count := some seed_blocked.card
          total_points := some adjacency.length
          seed_id := some seed_id
          opposite_id := some opposite_id
          opposite_seed_id := some opposite_seed
          seed_candidate_id := seed }

/-- Python `f"{v}"` of an int-or-None debug value. -/
def fmtOptNat : Option Nat → String
  | none => "None"
  | some n => toString n

/-- The fallback `DebugPoints` dictionary assembled when
`_collect_failure_debug` itself returns `None`, and also used for the
missing-dependencies skip message. -/
def availableDebug {K : Type} [LinearOrderedField K] (surface : VPolyData K)
    (geodesic_lines : GeoLines K) (deps : List String) : DebugPoints :=
  { boundary_ids := sortAsc (_collect_available_boundary_ids surface geodesic_lines deps)
    boundary_count := none
    blocked_count := none
    total_points := none
    seed_id := none
    opposite_id := none
    opposite_seed_id := none
    seed_candidate_id := none }

/-- `compute_segment_with_fallback`, the per-region worker closure defined
inside `compute_segment_ids` (its captured variables are explicit
parameters here). -/
def compute_segment_with_fallback {K : Type} [LinearOrderedField K] (fuel : Nat)
    (surface : VPolyData K) (adjacency : List (Finset Nat)) (landmarks : Landmarks K)
    (geodesic_lines : GeoLines K) (seg_id : Nat) (deps : List String)
    (opposite_key seed_key : String) (blocked_ids : Option (Finset Nat))
    (required_landmarks : Option (List String))
    (allow_fallback report_missing_deps : Bool) :
    Option (Finset Nat) × Option String × Option DebugPoints :=
  let reqMissing :=
    match required_landmarks with
    | none => false
    | some req => ! req.all (fun k => hasLm landmarks k)
  if reqMissing then (none, none, none)
  else
    let present := deps.all (fun key => hasGeo geodesic_lines key)
    if present = false then
      if report_missing_deps then
        let missing := deps.filter (fun key => ! hasGeo geodesic_lines key)
        let message :=
          if missing.isEmpty then
            "Segment " ++ toString seg_id ++ " skipped: missing boundary geodesics"
          else
            "Segment " ++ toString seg_id ++ " skipped: missing boundary geodesics (" ++
              String.intercalate ", " missing ++ ")"
        (none, some message, some (availableDebug surface geodesic_lines deps))
      else (none, none, none)
    else
      let seed_point : Option (V3 K) :=
        match deps with
        | [] => none
        | boundary_key :: _ =>
          match lookupGeo geodesic_lines boundary_key with
          | none => none
          | some pl => _polyline_midpoint_point pl
      let cleaned :=
        match blocked_ids with
        | none => none
        | some b => optOfSet b
      let segment0 :=
        _collect_segment_component fuel surface adjacency landmarks geodesic_lines deps
          opposite_key seed_key cleaned seed_point
      let segment :=
        match segment0 with
        | some s => some s
        | none =>
          if allow_fallback then
            (_seed_fallback_candidates landmarks seed_key opposite_key).foldl
              (fun acc candidate =>
                match acc with
                | some s => some s
                | none =>
                  _collect_segment_component fuel surface adjacency landmarks geodesic_lines
                    deps opposite_key seed_key cleaned (some candidate))
              none
          else none
      match segment with
      | some s => (some s, none, none)
      | none =>
        let debug_points :=
          match _collect_failure_debug fuel surface adjacency landmarks geodesic_lines deps
              opposite_key seed_key cleaned seed_point with
          | some dp => dp
          | none => availableDebug surface geodesic_lines deps
        let message :=
          _diagnose_segment_failure fuel seg_id surface adjacency landmarks geodesic_lines
            deps opposite_key seed_key cleaned seed_point
        let detail :=
          " seed_id=" ++ fmtOptNat debug_points.seed_id ++
          " opposite_id=" ++ fmtOptNat debug_points.opposite_id ++
          " opposite_seed_id=" ++ fmtOptNat debug_points.opposite_seed_id ++
          " seed_candidate_id=" ++ fmtOptNat debug_points.seed_candidate_id ++
          " boundary_count=" ++ fmtOptNat debug_points.boundary_count ++
          " blocked_count=" ++ fmtOptNat debug_points.blocked_count ++
          " total_points=" ++ fmtOptNat debug_points.total_points
        (none, some (message ++ " |" ++ detail), some debug_points)

/-- Region 1's boundary names, optionally extended by the auxiliary cutting
curve pairs when both halves are stored. -/
def seg1_deps {K : Type} (geodesic_lines : GeoLines K) : List String :=
  let base := ["AB_posterior", "AB_anterior"]
  let base :=
    if ["X1_X2_anterior", "X1_X2_posterior"].all (hasGeo geodesic_lines) then
      base ++ ["X1_X2_anterior", "X1_X2_posterior"]
    else base
  let base :=
    if ["A1_A2_anterior", "A1_A2_posterior"].all (hasGeo geodesic_lines) then
      base ++ ["A1_A2_anterior", "A1_A2_posterior"]
    else base
  if ["B1_B2_anterior", "B1_B2_posterior"].all (hasGeo geodesic_lines) then
    base ++ ["B1_B2_anterior", "B1_B2_posterior"]
  else base

/-- Region 2's boundary names, optionally extended. -/
def seg2_deps {K : Type} (geodesic_lines : GeoLines K) : List String :=
  let base := ["CD_posterior", "CD_anterior"]
  let base :=
    if ["C1_C2_anterior", "C1_C2_posterior"].all (hasGeo geodesic_lines) then
      base ++ ["C1_C2_anterior", "C1_C2_posterior"]
    else base
  if ["D1_D2_anterior", "D1_D2_posterior"].all (hasGeo geodesic_lines) then
    base ++ ["D1_D2_anterior", "D1_D2_posterior"]
  else base

/-- Region 5's boundary names, optionally extended. -/
def seg5_deps {K : Type} (geodesic_lines : GeoLines K) : List String :=
  let base := ["LAA1_LAA2_anterior", "LAA1_LAA2_posterior"]
  if ["X1_X2_anterior", "X1_X2_posterior"].all (hasGeo geodesic_lines) then
    base ++ ["X1_X2_anterior", "X1_X2_posterior"]
  else base

/-- Region 6's boundary names, optionally extended. -/
def seg6_deps {K : Type} (geodesic_lines : GeoLines K) : List String :=
  let base := ["AB_anterior", "AF", "BH", "FH_aniso"]
  if ["LAA1_LAA2_anterior", "LAA1_LAA2_posterior"].all (hasGeo geodesic_lines) then
    base ++ ["LAA1_LAA2_anterior", "LAA1_LAA2_posterior"]
  else base

/-- `if segK: segments[k] = segK` — a region is recorded only when its set is
present and non-empty (Python truthiness). -/
def addSeg (segments : List (Nat × Finset Nat)) (k : Nat) :
    Option (Finset Nat) → List (Nat × Finset Nat)
  | none => segments
  | some s => if s = ∅ then segments else segments ++ [(k, s)]

/-- `segments.get(k)`, with the empty set standing for an absent entry. -/
def segGet (segments : List (Nat × Finset Nat)) (k : Nat) : Finset Nat :=
  (segments.lookup k).getD ∅

/-- `blocked = set(); if segments.get(k): blocked |= segments[k] or set()`
over the listed region numbers. -/
def unionSegs (segments : List (Nat × Finset Nat)) (ks : List Nat) : Finset Nat :=
  ks.foldl
    (fun acc k => if segGet segments k = ∅ then acc else acc ∪ segGet segments k) ∅

/-- The sequential body of `compute_segment_ids` after its input guards: the
nine region computations in priority order with their early returns.  The
result carries the `segments` dictionary at the point of return together with
the first error message and debug record, exactly the data
`compute_segment_ids` feeds to `_build_segment_ids`. -/
def segmentsAndError {K : Type} [LinearOrderedField K] (fuel : Nat)
    (surface : VPolyData K) (landmarks : Landmarks K) (geodesic_lines : GeoLines K) :
    List (Nat × Finset Nat) × Option String × Option DebugPoints :=
  let adjacency := _build_point_adjacency surface
  match compute_segment_with_fallback fuel surface adjacency landmarks geodesic_lines
      1 (seg1_deps geodesic_lines) "D" "A" none none false true with
  | (_, some msg, dbg) => ([], some msg, dbg)
  | (seg1, none, _) =>
  let segments := addSeg [] 1 seg1
  match compute_segment_with_fallback fuel surface adjacency landmarks geodesic_lines
      2 (seg2_deps geodesic_lines) "A" "C" (segments.lookup 1) none false true with
  | (_, some msg, dbg) => (segments, some msg, dbg)
  | (seg2, none, _) =>
  let segments := addSeg segments 2 seg2
  let blocked := unionSegs segments [1, 2]
  match compute_segment_with_fallback fuel surface adjacency landmarks geodesic_lines
      3 ["AB_posterior", "CD_posterior", "AC", "BD"] "E" "C" (optOfSet blocked)
      none false true with
  | (_, some msg, dbg) => (segments, some msg, dbg)
  | (seg3, none, _) =>
  let segments := addSeg segments 3 seg3
  let blocked := unionSegs segments [1, 2, 3]
  match compute_segment_with_fallback fuel surface adjacency landmarks geodesic_lines
      4 ["AC", "AF", "CE", "EF_aniso"] "H" "C" (optOfSet blocked)
      (some ["A", "B", "C", "D", "E", "F", "H", "I"]) true true with
  | (_, some msg, dbg) => (segments, some msg, dbg)
  | (seg4, none, _) =>
  let segments := addSeg segments 4 seg4
  let blocked := unionSegs segments [1, 2, 3, 4]
  match compute_segment_with_fallback fuel surface adjacency landmarks geodesic_lines
      5 (seg5_deps geodesic_lines) "I" "LAA1" (optOfSet blocked)
      (some ["LAA1", "LAA2", "I", "F"]) false true with
  | (_, some msg, dbg) => (segments, some msg, dbg)
  | (seg5, none, _) =>
  let segments := addSeg segments 5 seg5
  let blocked :=
    match seg5 with
    | none => blocked
    | some s => if s = ∅ then blocked else blocked ∪ s
  match compute_segment_with_fallback fuel surface adjacency landmarks geodesic_lines
      6 (seg6_deps geodesic_lines) "E" "B" (optOfSet blocked)
      (some ["A", "B", "C", "D", "E", "F", "H", "I"]) true true with
  | (_, some msg, dbg) => (segments, some msg, dbg)
  | (seg6, none, _) =>
  let segments := addSeg segments 6 seg6
  let blocked := unionSegs segments [1, 2, 3, 4, 6]
  match compute_segment_with_fallback fuel surface adjacency landmarks geodesic_lines
      7 ["BD", "DI", "BH", "HI_aniso"] "A" "D" (optOfSet blocked)
      (some ["A", "B", "C", "D", "E", "F", "H", "I"]) true true with
  | (_, some msg, dbg) => (segments, some msg, dbg)
  | (seg7, none, _) =>
  let segments := addSeg segments 7 seg7
  let blocked := unionSegs segments [1, 2, 3, 4, 6, 7]
  match compute_segment_with_fallback fuel surface adjacency landmarks geodesic_lines
      8 ["CD_anterior", "CE", "DI", "IE_aniso"] "B" "D" (optOfSet blocked)
      (some ["A", "B", "C", "D", "E", "F", "H", "I"]) true true with
  | (_, some msg, dbg) => (segments, some msg, dbg)
  | (seg8, none, _) =>
  let segments := addSeg segments 8 seg8
  -- The source here computes the cumulative blocked union of regions 1-8 and
  -- then passes blocked_ids=None to region 9: the computed union is dead code.
  match compute_segment_with_fallback fuel surface adjacency landmarks geodesic_lines
      9 ["EF_aniso", "FH_aniso", "HI_aniso", "IE_aniso"] "B" "E" none
      (some ["E", "F", "H", "I"]) true true with
  | (_, some msg, dbg) => (segments, some msg, dbg)
  | (seg9, none, _) =>
  (addSeg segments 9 seg9, none, none)

/-- One key's running tally in `neighbor_counts` (`dict.get(seg, 0) + 1`,
keeping dict insertion order). -/
def bumpCount (counts : List (Nat × Nat)) (s : Nat) : List (Nat × Nat) :=
  match counts.lookup s with
  | none => counts ++ [(s, 1)]
  | some c => counts.map (fun p => if p.1 = s then (s, c + 1) else p)

/-- The `neighbor_counts` dictionary of `_assign_boundary_vertices`: counts of
the non-zero labels among a vertex's neighbours. -/
def neighborCounts (segment_ids : List Nat) (nbrs : List Nat) : List (Nat × Nat) :=
  nbrs.foldl
    (fun acc neighbor =>
      let s := segment_ids.getD neighbor 0
      if s = 0 then acc else bumpCount acc s)
    []

/-- `max(neighbor_counts.items(), key=lambda item: (item[1], -item[0]))[0]`:
the label with the greatest count, ties broken by the lower region number
(Python's `max` keeps the first maximal item; the maximiser is unique here
because keys are distinct). -/
def bestSeg (counts : List (Nat × Nat)) : Option Nat :=
  match counts with
  | [] => none
  | first :: rest =>
    some
      ((rest.foldl
          (fun best item =>
            if best.2 < item.2 ∨ (item.2 = best.2 ∧ item.1 < best.1) then item else best)
          first).1)

/-- `_assign_boundary_vertices` from regions.py: the seam-healing pass, giving
each still-unlabelled boundary vertex the majority label of its already
labelled neighbours. -/
def _assign_boundary_vertices (segment_ids : List Nat) (adjacency : List (Finset Nat))
    (boundary_ids : Finset Nat) : List Nat :=
  (sortAsc boundary_ids).foldl
    (fun arr vertex_id =>
      if arr.getD vertex_id 0 ≠ 0 then arr
      else
        match bestSeg (neighborCounts arr (nbrsList adjacency vertex_id)) with
        | none => arr
        | some best_seg => arr.set vertex_id best_seg)
    segment_ids

/-- The label-writing loop of `_build_segment_ids`: regions 1..9 in order,
each writing its label only onto still-unlabelled vertices (the redundant
`seg_id == 1` disjunct of the source is kept). -/
def writeSegments (segments : List (Nat × Finset Nat)) (arr0 : List Nat) : List Nat :=
  (List.range' 1 9).foldl
    (fun arr seg_id =>
      let s := segGet segments seg_id
      if s = ∅ then arr
      else
        (sortAsc s).foldl
          (fun arr vertex_id =>
            if seg_id = 1 ∨ arr.getD vertex_id 0 = 0 then arr.set vertex_id seg_id else arr)
          arr)
    arr0

/-- `_build_segment_ids` from regions.py: the published per-vertex label
array.  The array starts all-zero; regions 1..9 write their labels in order,
never overwriting a non-zero label; then the seam-healing pass runs over the
union of all stored polylines' boundary vertices. -/
def _build_segment_ids {K : Type} [LinearOrderedField K] (surface : VPolyData K)
    (segments : List (Nat × Finset Nat)) (adjacency : List (Finset Nat))
    (landmarks : Landmarks K) (geodesic_lines : GeoLines K) : List Nat :=
  let segment_ids := writeSegments segments (List.replicate (numberOfPoints surface) 0)
  match _collect_boundary_ids surface landmarks geodesic_lines (geoKeys geodesic_lines) with
  | none => segment_ids
  | some boundary_ids =>
    if boundary_ids = ∅ then segment_ids
    else _assign_boundary_vertices segment_ids adjacency boundary_ids

/-- `compute_segment_ids` from regions.py: the orchestrator.  Returns the
published label array (absent only when an input guard fails), the first
failure message, and the failure debug record. -/
def compute_segment_ids {K : Type} [LinearOrderedField K] (fuel : Nat)
    (surface : Option (VPolyData K)) (landmarks : Landmarks K)
    (geodesic_lines : GeoLines K) :
    Option (List Nat) × Option String × Option DebugPoints :=
  match surface with
  | none => (none, some "No surface loaded", none)
  | some surface =>
    if ! (["A", "B", "C", "D", "E", "F"].all (fun k => hasLm landmarks k)) then
      (none, some "Missing base landmarks", none)
    else if ! (["AB_anterior", "AB_posterior"].all (hasGeo geodesic_lines)) then
      (none, some "Missing AB geodesics", none)
    else if ! (["CD_anterior", "CD_posterior"].all (hasGeo geodesic_lines)) then
      (none, some "Missing CD geodesics", none)
    else
      let adjacency := _build_point_adjacency surface
      let r := segmentsAndError fuel surface landmarks geodesic_lines
      (some (_build_segment_ids surface r.1 adjacency landmarks geodesic_lines), r.2.1, r.2.2)

/-- Failure modes of the modelled searches: `indexError` models an uncaught
Python `IndexError`; `outOfFuel` marks that the model's step bound was hit
(the Python loop either needed more steps or diverges, which is possible for
penalty strengths below `-1`). -/
inductive GeoErr
  | indexError
  | outOfFuel
deriving DecidableEq, Repr

/-- `GeodesicResult` from geodesics.py. -/
structure GeodesicResult (K : Type) where
  point_ids : List Nat
  polyline : VPolyData K
deriving DecidableEq

/-- The minimum of the pending heap entries under the `(distance, vertex)`
lexicographic order `heapq` uses on tuples.  Entries are pairwise distinct in
every reachable state (a vertex is re-pushed only with a strictly smaller
distance), so this is exactly the entry `heappop` removes. -/
def heapMin {K : Type} [LinearOrderedField K] : List (K × Nat) → Option (K × Nat)
  | [] => none
  | e :: rest =>
    some
      (rest.foldl
        (fun m x => if x.1 < m.1 ∨ (x.1 = m.1 ∧ x.2 < m.2) then x else m) e)

/-- The relaxation of one neighbour in the Dijkstra inner loop, on the state
`(dist, prev, heap)`.  `w current neighbor = none` models the `length == 0`
`continue`. -/
def relax {K : Type} [LinearOrderedField K] (w : Nat → Nat → Option K)
    (current : Nat) (current_dist : K)
    (st : List (WithTop K) × List Int × List (K × Nat)) (neighbor : Nat) :
    List (WithTop K) × List Int × List (K × Nat) :=
  match w current neighbor with
  | none => st
  | some weight =>
    let next_dist := current_dist + weight
    if (next_dist : WithTop K) < st.1.getD neighbor ⊤ then
      (st.1.set neighbor next_dist,
       st.2.1.set neighbor (current : Int),
       st.2.2 ++ [(next_dist, neighbor)])
    else st

/-- The Dijkstra main loop shared by the source's anisotropic search and the
spec's isotropic search: pop the minimum entry, skip it if stale, stop once
`end_id` is popped, otherwise relax all neighbours.  `none` when the fuel ran
out with entries still pending. -/
def dijkstra_loop {K : Type} [LinearOrderedField K] (adjacency : List (Finset Nat))
    (w : Nat → Nat → Option K) (end_id : Nat) :
    Nat → List (WithTop K) → List Int → List (K × Nat) →
    Option (List (WithTop K) × List Int)
  | 0, dist, prev, heap =>
    match heapMin heap with
    | none => some (dist, prev)
    | some _ => none
  | fuel + 1, dist, prev, heap =>
    match heapMin heap with
    | none => some (dist, prev)
    | some entry =>
      let heap := heap.erase entry
      if (entry.1 : WithTop K) ≠ dist.getD entry.2 ⊤ then
        dijkstra_loop adjacency w end_id fuel dist prev heap
      else if entry.2 = end_id then some (dist, prev)
      else
        let st := (nbrsList adjacency entry.2).foldl (relax w entry.2 entry.1) (dist, prev, heap)
        dijkstra_loop adjacency w end_id fuel st.1 st.2.1 st.2.2

/-- The Euclidean edge length `sqrt(dx*dx + dy*dy + dz*dz)` between two
vertices' positions, as computed in the search's inner loop. -/
def euclLength {K : Type} [LinearOrderedField K] (sqrtFn : K → K)
    (surface : VPolyData K) (a b : Nat) : K :=
  let p := getPoint surface a
  let q := getPoint surface b
  sqrtFn ((q.1 - p.1) * (q.1 - p.1) + (q.2.1 - p.2.1) * (q.2.1 - p.2.1) +
    (q.2.2 - p.2.2) * (q.2.2 - p.2.2))

/-- The per-edge cost of `compute_anisotropic_geodesic`:
`length * (1 + penalty_strength * |dot(unit_edge_direction, unit_normal)|)`,
with a zero `unit_normal` degenerating to penalty 1 and zero-length edges
skipped (`none`). -/
def anisoWeight {K : Type} [LinearOrderedField K] (sqrtFn : K → K)
    (surface : VPolyData K) (unit_normal : V3 K) (penalty_strength : K)
    (current neighbor : Nat) : Option K :=
  let p := getPoint surface current
  let q := getPoint surface neighbor
  let dx := q.1 - p.1
  let dy := q.2.1 - p.2.1
  let dz := q.2.2 - p.2.2
  let length := euclLength sqrtFn surface current neighbor
  if length = 0 then none
  else
    let penalty :=
      if unit_normal = ((0 : K), (0 : K), (0 : K)) then 1
      else
        1 + penalty_strength *
          |dx / length * unit_normal.1 + dy / length * unit_normal.2.1 +
            dz / length * unit_normal.2.2|
    some (length * penalty)

/-- The backtracking loop of the path reconstruction: follow `prev` from
`end` until `start` or the `-1` sentinel.  The internal fuel at the call
sites is `num_points + 1`, enough for every acyclic `prev` table; a cyclic
table (possible only with negative edge costs) makes Python diverge. -/
def reconstruct_path (prev : List Int) (start_id : Nat) :
    Nat → Int → List Nat → Option (List Nat)
  | 0, _, _ => none
  | fuel + 1, current, acc =>
    if current = -1 then some acc
    else
      let acc := acc ++ [current.toNat]
      if current = (start_id : Int) then some acc
      else reconstruct_path prev start_id fuel (prev.getD current.toNat (-1)) acc

/-- The polyline built from the found path: the positions of the path
vertices and one line cell through them all. -/
def mkPolyline {K : Type} [LinearOrderedField K] (surface : VPolyData K)
    (path_ids : List Nat) : VPolyData K :=
  { pts := some (path_ids.map (getPoint surface))
    polys := []
    strips := []
    lines := [List.range path_ids.length] }

/-- `compute_anisotropic_geodesic` from geodesics.py.  Guards: an empty
surface or `start_id == end_id` give `None` before any search.  There is no
index-validity guard: an out-of-range `start_id` raises at
`dist[start_id] = 0.0`, and an out-of-range `end_id` raises only after the
search, at `prev[end_id]`. -/
def compute_anisotropic_geodesic {K : Type} [LinearOrderedField K] (sqrtFn : K → K)
    (fuel : Nat) (surface : VPolyData K) (start_id end_id : Nat) (normal : V3 K)
    (penalty_strength : K) : Except GeoErr (Option (GeodesicResult K)) :=
  let num_points := numberOfPoints surface
  if num_points = 0 then .ok none
  else if start_id = end_id then .ok none
  else
    let adjacency := _build_point_adjacency surface
    let unit_normal := normalize sqrtFn normal
    if num_points ≤ start_id then .error .indexError
    else
      let dist := (List.replicate num_points (⊤ : WithTop K)).set start_id 0
      let prev := List.replicate num_points (-1 : Int)
      match dijkstra_loop adjacency
          (anisoWeight sqrtFn surface unit_normal penalty_strength) end_id fuel
          dist prev [((0 : K), start_id)] with
      | none => .error .outOfFuel
      | some (_dist1, prev1) =>
        if num_points ≤ end_id then .error .indexError
        else if prev1.getD end_id (-1) = -1 then .ok none
        else
          match reconstruct_path prev1 start_id (num_points + 1) (end_id : Int) [] with
          | none => .error .outOfFuel
          | some path_ids =>
            if path_ids.getLast? ≠ some start_id then .ok none
            else
              let ids := path_ids.reverse
              .ok (some { point_ids := ids, polyline := mkPolyline surface ids })

/-- Modelled from the spec: `shortest_path` (section 4.2).  The unweighted
search in the source (`compute_geodesic`) delegates to the external
`vtkDijkstraGraphGeodesicPath`, so this follows the spec's words: Dijkstra
over the vertex-adjacency graph with edge cost the Euclidean distance between
the endpoint positions, a standard min-heap with stale-entry skipping, early
termination once `end` is popped, and `NotFound` exactly when `end` is
unreachable from `start`.  The outer `Option` is the model's step fuel. -/
def shortest_path {K : Type} [LinearOrderedField K] (sqrtFn : K → K) (fuel : Nat)
    (surface : VPolyData K) (start_id end_id : Nat) :
    Option (Option (List Nat)) :=
  let num_points := numberOfPoints surface
  let adjacency := _build_point_adjacency surface
  let dist := (List.replicate num_points (⊤ : WithTop K)).set start_id 0
  let prev := List.replicate num_points (-1 : Int)
  match dijkstra_loop adjacency (fun a b => some (euclLength sqrtFn surface a b)) end_id
      fuel dist prev [((0 : K), start_id)] with
  | none => none
  | some (dist1, prev1) =>
    if dist1.getD end_id ⊤ = ⊤ then some none
    else
      match reconstruct_path prev1 start_id (num_points + 1) (end_id : Int) [] with
      | none => none
      | some path => some (some path.reverse)

/-- The mutable point-data scalar slot of a surface (`GetPointData()`): the
piece of VTK state that `compute_weighted_geodesic` swaps. -/
structure PointDataState (K : Type) where
  scalars : Option (List K)
deriving DecidableEq

/-- `compute_weighted_geodesic` from geodesics.py.  The external scalar-
weighted `vtkDijkstraGraphGeodesicPath` run is the opaque parameter
`vtkDijkstra`, reading the surface and the currently installed scalars (VTK
filters do not mutate their input).  The function validates the weight count
(the one hard error in the core), installs the caller's weights as the active
scalars, runs the external search, restores the previously installed scalars
object, and returns the result together with the final point-data state. -/
def compute_weighted_geodesic {K : Type} [LinearOrderedField K]
    (vtkDijkstra : VPolyData K → Option (List K) → Nat → Nat → GeodesicResult K)
    (surface : VPolyData K) (point_data : PointDataState K)
    (start_id end_id : Nat) (weights : List K) :
    Except String (GeodesicResult K × PointDataState K) :=
  if numberOfPoints surface ≠ weights.length then
    .error "Weight count must match number of points"
  else
    let previous_scalars := point_data.scalars
    let point_data := PointDataState.mk (some weights)
    let result := vtkDijkstra surface point_data.scalars start_id end_id
    let point_data := PointDataState.mk previous_scalars
    .ok (result, point_data)

/-- A point on the x-axis (concrete inputs place all data on the x-axis). -/
def xpt (x : ℚ) : V3 ℚ := (x, 0, 0)

/-- A degenerate stored polyline whose only line cell joins two copies of the
same point at `x = w`: its collected boundary set is exactly the nearest
vertex to `(w,0,0)`. -/
def wallLine (w : ℚ) : VPolyData ℚ :=
  { pts := some [xpt w, xpt w], polys := [], strips := [], lines := [[0, 1]] }

/-- A stored polyline with three points `w, s, w` whose only line cell joins
points 0 and 2: its collected boundary set is the nearest vertex to
`(w,0,0)`, while its midpoint (point index 1) sits at `(s,0,0)`. -/
def wallSeed (w s : ℚ) : VPolyData ℚ :=
  { pts := some [xpt w, xpt s, xpt w], polys := [], strips := [], lines := [[0, 2]] }

/-- Concrete 29-vertex mesh: vertex `i` at `(i,0,0)`; one 2-vertex face
joining vertices 9 and 10, every other vertex isolated. -/
def mesh29 : VPolyData ℚ :=
  { pts := some ((List.range 29).map (fun i => xpt i))
    polys := [[9, 10]]
    strips := []
    lines := [] }

/-- Landmarks for the concrete runs: `A`..`I` at `x = 0..7` (no `LAA1`/`LAA2`,
so region 5 is skipped). -/
def landmarks29 : Landmarks ℚ :=
  [("A", xpt 0), ("B", xpt 1), ("C", xpt 2), ("D", xpt 3),
   ("E", xpt 4), ("F", xpt 5), ("H", xpt 6), ("I", xpt 7)]

/-- Stored geodesics for the concrete run of the orchestrator: each boundary
curve is a one-vertex wall; the first dependency of each region carries that
region's seed point as its midpoint.  `EF_aniso`'s midpoint is `(9,0,0)` —
the same vertex region 1 grows from — so region 9's flood is seeded on a
vertex already claimed by region 1. -/
def geo29 : GeoLines ℚ :=
  [("AB_anterior", wallSeed 10 28),
   ("AB_posterior", wallSeed 8 9),
   ("CD_anterior", wallSeed 13 14),
   ("CD_posterior", wallSeed 11 12),
   ("AC", wallSeed 15 16),
   ("BD", wallSeed 17 18),
   ("CE", wallLine 19),
   ("AF", wallLine 20),
   ("BH", wallLine 21),
   ("DI", wallLine 22),
   ("EF_aniso", wallSeed 23 9),
   ("FH_aniso", wallLine 24),
   ("HI_aniso", wallLine 25),
   ("IE_aniso", wallLine 26)]

/-- `geo29` with region 4's required boundary geodesic `EF_aniso` removed:
the input for the region-4 skip scenario. -/
def geo29noEF : GeoLines ℚ :=
  [("AB_anterior", wallSeed 10 28),
   ("AB_posterior", wallSeed 8 9),
   ("CD_anterior", wallSeed 13 14),
   ("CD_posterior", wallSeed 11 12),
   ("AC", wallSeed 15 16),
   ("BD", wallSeed 17 18),
   ("CE", wallLine 19),
   ("AF", wallLine 20),
   ("BH", wallLine 21),
   ("DI", wallLine 22),
   ("FH_aniso", wallLine 24),
   ("HI_aniso", wallLine 25),
   ("IE_aniso", wallLine 26)]

/-- The 29-vertex mesh with two extra faces `[12,11]` and `[11,27]`: vertex 11
is a region-2 boundary vertex next to the labelled seed 12, and vertex 27
hangs off 11, outside every stored polyline's samples. -/
def mesh29heal : VPolyData ℚ :=
  { pts := some ((List.range 29).map (fun i => xpt i))
    polys := [[9, 10], [12, 11], [11, 27]]
    strips := []
    lines := [] }

/-- `geo29` extended with a stored polyline `"ZZ"` that no region depends on:
its only effect is to add vertex 27 to the boundary-healing pass. -/
def geo29ZZ : GeoLines ℚ := geo29 ++ [("ZZ", wallLine 27)]

/-- A one-vertex surface with no cells. -/
def onePt : VPolyData ℚ :=
  { pts := some [(0, 0, 0)], polys := [], strips := [], lines := [] }

/-- A two-vertex surface with no cells. -/
def twoPts : VPolyData ℚ :=
  { pts := some [(0, 0, 0), (1, 1, 1)], polys := [], strips := [], lines := [] }

/-- A two-vertex surface whose single face joins the two vertices. -/
def edge2 : VPolyData ℚ :=
  { pts := some [(0, 0, 0), (1, 0, 0)], polys := [[0, 1]], strips := [], lines := [] }

instance {e a : Type} [DecidableEq e] [DecidableEq a] : DecidableEq (Except e a) := fun x y =>
  match x, y with
  | .error u, .error v => if h : u = v then isTrue (by rw [h]) else isFalse (by simp [h])
  | .error _, .ok _ => isFalse (by simp)
  | .ok _, .error _ => isFalse (by simp)
  | .ok u, .ok v => if h : u = v then isTrue (by rw [h]) else isFalse (by simp [h])

/-- A placeholder result standing in for an arbitrary external search output. -/
def dummyGeoResult : GeodesicResult ℚ := ⟨[], ⟨none, [], [], []⟩⟩

/-- A placeholder external scalar-weighted search. -/
def dummyDijkstra : VPolyData ℚ → Option (List ℚ) → Nat → Nat → GeodesicResult ℚ :=
  fun _ _ _ _ => dummyGeoResult

/-- The predecessor-table invariant of the Dijkstra loop: every entry is the
`-1` sentinel or records an actual relaxed edge, so that following it steps
to a graph neighbour. -/
def PrevInv (adjacency : List (Finset Nat)) (prev : List Int) : Prop :=
  ∀ i : Nat, prev.getD i (-1) = -1 ∨
    ∃ c : Nat, prev.getD i (-1) = (c : Int) ∧ i ∈ adjacency.getD c ∅

/-- The joint distance/predecessor invariant of the Dijkstra loop under
positive edge weights: the tables stay aligned in length, a non-start vertex
has an infinite distance exactly when it has no predecessor, and following a
predecessor strictly decreases the recorded distance. -/
def DijInv {K : Type} [LinearOrderedField K] (start_id : Nat)
    (dist : List (WithTop K)) (prev : List Int) : Prop :=
  dist.length = prev.length ∧
  (∀ v : Nat, v ≠ start_id → (dist.getD v ⊤ = ⊤ ↔ prev.getD v (-1) = -1)) ∧
  (∀ v : Nat, prev.getD v (-1) = -1 ∨
    ∃ c : Nat, prev.getD v (-1) = (c : Int) ∧ dist.getD c ⊤ < dist.getD v ⊤)

/-!  Theorems.  Each claim `Cn` of the specification review gets exactly one
theorem (plus, where required, a witness instantiation and a counterexample). -/

theorem collect_scan_spec (stop : Nat → Bool) :
    ∀ (nbrs : List Nat) (acc : Finset Nat × List Nat) (v : Nat),
      v ∈ (nbrs.foldl
        (fun acc neighbor =>
          if neighbor ∈ acc.1 then acc
          else if stop neighbor then acc
          else (insert neighbor acc.1, acc.2 ++ [neighbor])) acc).1 →
      v ∈ acc.1 ∨ stop v = false := by
  intro nbrs
  induction nbrs with
  | nil => intro acc v hv; exact Or.inl hv
  | cons n ns ih =>
    intro acc v hv
    simp only [List.foldl_cons] at hv
    by_cases h1 : n ∈ acc.1
    · rw [if_pos h1] at hv
      exact ih acc v hv
    · rw [if_neg h1] at hv
      by_cases h2 : stop n = true
      · rw [if_pos h2] at hv
        exact ih acc v hv
      · rw [if_neg h2] at hv
        rcases ih _ v hv with hmem | hstop
        · rcases Finset.mem_insert.mp hmem with rfl | hmem
          · exact Or.inr (by simpa using h2)
          · exact Or.inl hmem
        · exact Or.inr hstop

theorem collect_bfs_spec (adjacency : List (Finset Nat)) (stop : Nat → Bool) :
    ∀ (fuel : Nat) (visited : Finset Nat) (queue : List Nat) (v : Nat),
      v ∈ collect_bfs adjacency stop fuel visited queue →
      v ∈ visited ∨ stop v = false := by
  intro fuel
  induction fuel with
  | zero => intro visited queue v hv; exact Or.inl hv
  | succ f ih =>
    intro visited queue v hv
    cases queue with
    | nil => exact Or.inl hv
    | cons current rest =>
      simp only [collect_bfs] at hv
      rcases ih _ _ v hv with h1 | h1
      · exact collect_scan_spec stop (nbrsList adjacency current) (visited, []) v h1
      · exact Or.inr h1

/-- Claim C2 (corrected: the fill's output is disjoint from
`boundary ∪ blocked` provided the seed itself is outside both sets — which
every call site guarantees by seeding through `_find_non_boundary_seed` —
whereas `_collect_component` adds an arbitrary seed to its output
unconditionally): the flood fill never collects a boundary or blocked vertex
beyond its seed. -/
theorem C2_flood_disjoint_of_free_seed (fuel seed_id : Nat)
    (adjacency : List (Finset Nat)) (boundary_ids blocked_ids : Finset Nat)
    (hb : seed_id ∉ boundary_ids) (hk : seed_id ∉ blocked_ids) :
    Disjoint (_collect_component fuel seed_id adjacency boundary_ids blocked_ids)
      (boundary_ids ∪ blocked_ids) := by
  rw [Finset.disjoint_left]
  intro v hv hmem
  rcases collect_bfs_spec adjacency _ fuel {seed_id} [seed_id] v hv with h1 | h1
  · rcases Finset.mem_union.mp hmem with h | h
    · exact hb (Finset.mem_singleton.mp h1 ▸ h)
    · exact hk (Finset.mem_singleton.mp h1 ▸ h)
  · rcases Finset.mem_union.mp hmem with h | h
    · simp [h] at h1
    · simp [h] at h1

/-- Witness for C2: a concrete free-seeded run of the flood fill. -/
theorem C2_flood_disjoint_witness :
    (0 : Nat) ∉ ({1} : Finset Nat) ∧ (0 : Nat) ∉ (∅ : Finset Nat) ∧
    Disjoint (_collect_component 5 0 [{1}, {0}] {1} ∅) ({1} ∪ (∅ : Finset Nat)) :=
  ⟨by decide, by decide,
    C2_flood_disjoint_of_free_seed 5 0 [{1}, {0}] {1} ∅ (by decide) (by decide)⟩

/-- Counterexample for C2 as stated: with the seed placed on the boundary,
the returned component contains that boundary vertex, so the output is not
disjoint from `boundary ∪ blocked` for every seed. -/
theorem C2_seed_on_boundary_counterexample :
    0 ∈ _collect_component 1 0 [∅] {0} ∅ ∩ ({0} ∪ (∅ : Finset Nat)) := by
  decide

/-- Claim C5 (amended: the search returns `None` immediately when the surface
is empty or `start == end`; there is no index-validity guard — an invalid
index raises an `IndexError` instead of producing `None`): the two guards
that do exist. -/
theorem C5_empty_or_equal_guard {K : Type} [LinearOrderedField K] (sqrtFn : K → K)
    (fuel : Nat) (surface : VPolyData K) (start_id end_id : Nat) (normal : V3 K)
    (penalty_strength : K) (h : numberOfPoints surface = 0 ∨ start_id = end_id) :
    compute_anisotropic_geodesic sqrtFn fuel surface start_id end_id normal
      penalty_strength = .ok none := by
  unfold compute_anisotropic_geodesic
  rcases h with h | h
  · simp [h]
  · by_cases hn : numberOfPoints surface = 0 <;> simp [hn, h]

/-- Witness for C5: the `start == end` guard on a concrete surface. -/
theorem C5_empty_or_equal_guard_witness :
    (numberOfPoints onePt = 0 ∨ (0 : Nat) = 0) ∧
    compute_anisotropic_geodesic (id : ℚ → ℚ) 5 onePt 0 0 (0, 0, 0) 1 = .ok none :=
  ⟨Or.inr rfl, C5_empty_or_equal_guard id 5 onePt 0 0 (0, 0, 0) 1 (Or.inr rfl)⟩

/-- Counterexample for C5 as stated: an out-of-range `end` vertex does not
produce `None` — the search runs and then raises (`IndexError` at
`prev[end_id]`), modelled as an error value. -/
theorem C5_invalid_index_counterexample :
    compute_anisotropic_geodesic (id : ℚ → ℚ) 20 twoPts 0 5 (0, 0, 0) 0 =
      .error .indexError := by
  decide

/-- Claim C6 (corrected: the classification is `+1`/`-1` with an exactly-zero
dot product classified `+1`, and it is invariant under positive scaling of
the normal; but negating the normal flips the result only when the dot
product is non-zero — on the plane itself both orientations give `+1`). -/
theorem C6_plane_side_sign_behaviour {K : Type} [LinearOrderedField K]
    (plane_point normal point : V3 K) (c : K) :
    (plane_side plane_point normal point = 1 ∨ plane_side plane_point normal point = -1) ∧
    (0 < c →
      plane_side plane_point (scale normal c) point = plane_side plane_point normal point) ∧
    (dot normal (sub point plane_point) ≠ 0 →
      plane_side plane_point (-normal.1, -normal.2.1, -normal.2.2) point =
        - plane_side plane_point normal point) := by
  refine ⟨?_, ?_, ?_⟩
  · unfold plane_side
    split
    · exact Or.inl rfl
    · exact Or.inr rfl
  · intro hc
    unfold plane_side
    have hd : dot (scale normal c) (sub point plane_point) =
        c * dot normal (sub point plane_point) := by
      unfold dot scale sub
      ring
    rcases le_or_lt 0 (dot normal (sub point plane_point)) with hx | hx
    · rw [if_pos hx, if_pos (by rw [hd]; exact mul_nonneg hc.le hx)]
    · rw [if_neg (not_le.mpr hx), if_neg (by rw [hd, not_le]; exact mul_neg_of_pos_of_neg hc hx)]
  · intro hnz
    unfold plane_side
    have hd : dot (-normal.1, -normal.2.1, -normal.2.2) (sub point plane_point) =
        - dot normal (sub point plane_point) := by
      unfold dot sub
      ring
    rcases lt_or_gt_of_ne hnz with hx | hx
    · rw [if_neg (not_le.mpr hx), if_pos (by rw [hd]; exact neg_nonneg.mpr hx.le)]
      norm_num
    · rw [if_pos hx.le, if_neg (by rw [hd, not_le]; exact neg_neg_of_pos hx)]

/-- Witness for C6: positive scaling and the off-plane flip at a concrete
input. -/
theorem C6_plane_side_sign_witness :
    ((0 : ℚ) < 2) ∧
    (dot ((1 : ℚ), 0, 0) (sub ((3 : ℚ), 0, 0) ((0 : ℚ), 0, 0)) ≠ 0) ∧
    plane_side ((0 : ℚ), 0, 0) (scale (1, 0, 0) 2) (3, 0, 0) =
      plane_side ((0 : ℚ), 0, 0) (1, 0, 0) (3, 0, 0) ∧
    plane_side ((0 : ℚ), 0, 0) (-(1 : ℚ), -(0 : ℚ), -(0 : ℚ)) (3, 0, 0) =
      - plane_side ((0 : ℚ), 0, 0) (1, 0, 0) (3, 0, 0) := by
  refine ⟨by norm_num, ?_, ?_, ?_⟩
  · show (1 : ℚ) * (3 - 0) + 0 * (0 - 0) + 0 * (0 - 0) ≠ 0
    norm_num
  · exact (C6_plane_side_sign_behaviour ((0 : ℚ), 0, 0) (1, 0, 0) (3, 0, 0) 2).2.1
      (by norm_num)
  · exact (C6_plane_side_sign_behaviour ((0 : ℚ), 0, 0) (1, 0, 0) (3, 0, 0) 2).2.2
      (by show (1 : ℚ) * (3 - 0) + 0 * (0 - 0) + 0 * (0 - 0) ≠ 0; norm_num)

/-- Counterexample for C6 as stated: with the query point exactly on the
plane, the zero tie-break gives `+1` for the normal and for its negation, so
negation does not always flip the result. -/
theorem C6_on_plane_negation_counterexample :
    plane_side ((0 : ℚ), 0, 0) (1, 0, 0) (0, 1, 0) = 1 ∧
    plane_side ((0 : ℚ), 0, 0) (-1, 0, 0) (0, 1, 0) = 1 := by
  constructor <;>
    · unfold plane_side dot sub
      norm_num

/-- Claim C9 (confirmed): whenever `compute_weighted_geodesic` returns
normally, the point-data scalars it leaves behind are exactly the scalars
installed before the call: the caller's weights are only installed
temporarily for the external search. -/
theorem C9_weighted_geodesic_restores_scalars {K : Type} [LinearOrderedField K]
    (vtkDijkstra : VPolyData K → Option (List K) → Nat → Nat → GeodesicResult K)
    (surface : VPolyData K) (point_data : PointDataState K)
    (start_id end_id : Nat) (weights : List K)
    (r : GeodesicResult K × PointDataState K)
    (h : compute_weighted_geodesic vtkDijkstra surface point_data start_id end_id weights
      = .ok r) :
    r.2.scalars = point_data.scalars := by
  unfold compute_weighted_geodesic at h
  by_cases hg : numberOfPoints surface ≠ weights.length
  · rw [if_pos hg] at h
    exact absurd h (by simp)
  · rw [if_neg hg] at h
    cases h
    rfl

/-- Witness for C9: a concrete normal run with a dummy external search. -/
theorem C9_weighted_geodesic_restores_scalars_witness :
    compute_weighted_geodesic dummyDijkstra onePt ⟨some [5]⟩ 0 1 [3] =
      .ok (dummyGeoResult, ⟨some [5]⟩) ∧
    ((dummyGeoResult, (⟨some [5]⟩ : PointDataState ℚ)).2).scalars =
      (⟨some [5]⟩ : PointDataState ℚ).scalars :=
  ⟨rfl,
    C9_weighted_geodesic_restores_scalars dummyDijkstra onePt ⟨some [5]⟩ 0 1 [3]
      (dummyGeoResult, ⟨some [5]⟩) rfl⟩

theorem foldl_length_preserved {β : Type} (l : List β) (step : List Nat → β → List Nat)
    (hstep : ∀ arr b, (step arr b).length = arr.length) :
    ∀ arr : List Nat, (l.foldl step arr).length = arr.length := by
  induction l with
  | nil => intro arr; rfl
  | cons x xs ih => intro arr; rw [List.foldl_cons, ih, hstep]

theorem foldl_bound_preserved {β : Type} :
    ∀ (l : List β) (step : List Nat → β → List Nat),
      (∀ arr b, b ∈ l → (∀ x ∈ arr, x ≤ 9) → ∀ x ∈ step arr b, x ≤ 9) →
      ∀ arr : List Nat, (∀ x ∈ arr, x ≤ 9) → ∀ x ∈ l.foldl step arr, x ≤ 9 := by
  intro l
  induction l with
  | nil => intro step hstep arr h; exact h
  | cons y ys ih =>
    intro step hstep arr h
    rw [List.foldl_cons]
    exact ih step (fun arr2 b hb => hstep arr2 b (List.mem_cons_of_mem _ hb)) _
      (hstep arr y (List.mem_cons_self _ _) h)

theorem getD_bound (arr : List Nat) (i : Nat) (h : ∀ x ∈ arr, x ≤ 9) :
    arr.getD i 0 ≤ 9 := by
  by_cases hi : i < arr.length
  · rw [List.getD_eq_getElem arr 0 hi]
    exact h _ (arr.getElem_mem hi)
  · rw [List.getD_eq_default arr 0 (le_of_not_lt hi)]
    exact Nat.zero_le 9

theorem bumpCount_keys (acc : List (Nat × Nat)) (s : Nat) :
    ∀ p ∈ bumpCount acc s, p.1 ∈ acc.map Prod.fst ∨ p.1 = s := by
  intro p hp
  unfold bumpCount at hp
  rcases hl : acc.lookup s with _ | c
  · rw [hl] at hp
    rcases List.mem_append.mp hp with h | h
    · exact Or.inl (List.mem_map.mpr ⟨p, h, rfl⟩)
    · simp at h
      exact Or.inr (by rw [h])
  · rw [hl] at hp
    rcases List.mem_map.mp hp with ⟨q, hq, hqe⟩
    by_cases hqs : q.1 = s
    · rw [if_pos hqs] at hqe
      exact Or.inr (by rw [← hqe])
    · rw [if_neg hqs] at hqe
      exact Or.inl (List.mem_map.mpr ⟨q, hq, by rw [← hqe]⟩)

theorem neighborCounts_bound (arr : List Nat) (nbrs : List Nat)
    (harr : ∀ x ∈ arr, x ≤ 9) :
    ∀ p ∈ neighborCounts arr nbrs, p.1 ≤ 9 := by
  unfold neighborCounts
  suffices h : ∀ (nbrs : List Nat) (acc : List (Nat × Nat)), (∀ p ∈ acc, p.1 ≤ 9) →
      ∀ p ∈ nbrs.foldl
        (fun acc neighbor =>
          let s := arr.getD neighbor 0
          if s = 0 then acc else bumpCount acc s) acc, p.1 ≤ 9 by
    exact h nbrs [] (by simp)
  intro nbrs
  induction nbrs with
  | nil => intro acc hacc; exact hacc
  | cons n ns ih =>
    intro acc hacc p
    rw [List.foldl_cons]
    refine ih _ ?_ p
    intro q hq
    by_cases hs : arr.getD n 0 = 0
    · simp only [hs, if_pos] at hq
      exact hacc q (by simpa using hq)
    · simp only [if_neg hs] at hq
      rcases bumpCount_keys acc (arr.getD n 0) q (by simpa using hq) with h | h
      · rcases List.mem_map.mp h with ⟨q2, hq2, hq2e⟩
        exact hq2e ▸ hacc q2 hq2
      · exact h ▸ getD_bound arr n harr

theorem bestSeg_mem (counts : List (Nat × Nat)) (b : Nat) (h : bestSeg counts = some b) :
    ∃ p ∈ counts, p.1 = b := by
  unfold bestSeg at h
  rcases counts with _ | ⟨first, rest⟩
  · exact absurd h (by simp)
  · have hmem : ∀ (rest : List (Nat × Nat)) (first : Nat × Nat),
        (rest.foldl
          (fun best item =>
            if best.2 < item.2 ∨ (item.2 = best.2 ∧ item.1 < best.1) then item else best)
          first) ∈ first :: rest := by
      intro rest
      induction rest with
      | nil => intro first; simp
      | cons y ys ih =>
        intro first
        rw [List.foldl_cons]
        split
        · exact List.mem_cons_of_mem _ (ih y)
        · rcases List.mem_cons.mp (ih first) with h1 | h1
          · rw [h1]
            exact List.mem_cons_self _ _
          · exact List.mem_cons_of_mem _ (List.mem_cons_of_mem _ h1)
    injection h with h
    exact ⟨_, hmem rest first, h⟩

theorem assign_step_bound (adjacency : List (Finset Nat)) (arr : List Nat) (v : Nat)
    (harr : ∀ x ∈ arr, x ≤ 9) :
    ∀ x ∈ (if arr.getD v 0 ≠ 0 then arr
      else
        match bestSeg (neighborCounts arr (nbrsList adjacency v)) with
        | none => arr
        | some best_seg => arr.set v best_seg), x ≤ 9 := by
  split
  · exact harr
  · rcases hbs : bestSeg (neighborCounts arr (nbrsList adjacency v)) with _ | b
    · exact harr
    · intro x hx
      rcases List.mem_or_eq_of_mem_set hx with h | h
      · exact harr x h
      · rcases bestSeg_mem _ b hbs with ⟨p, hp, hpb⟩
        exact h ▸ hpb ▸ neighborCounts_bound arr _ harr p hp

theorem writeSegments_length (segments : List (Nat × Finset Nat)) (arr0 : List Nat) :
    (writeSegments segments arr0).length = arr0.length := by
  unfold writeSegments
  refine foldl_length_preserved _ _ ?_ arr0
  intro arr seg_id
  dsimp only
  split
  · rfl
  · refine foldl_length_preserved _ _ ?_ arr
    intro arr2 v
    split
    · exact List.length_set arr2 v seg_id
    · rfl

theorem writeSegments_bound (segments : List (Nat × Finset Nat)) (arr0 : List Nat)
    (h0 : ∀ x ∈ arr0, x ≤ 9) : ∀ x ∈ writeSegments segments arr0, x ≤ 9 := by
  unfold writeSegments
  refine foldl_bound_preserved _ _ ?_ arr0 h0
  intro arr seg_id hseg harr
  have hsid : seg_id ≤ 9 := by
    have := List.mem_range'_1.mp hseg
    omega
  dsimp only
  split
  · exact harr
  · refine foldl_bound_preserved _ _ ?_ arr harr
    intro arr2 v _ harr2 x hx
    split at hx
    · rcases List.mem_or_eq_of_mem_set hx with h | h
      · exact harr2 x h
      · exact h ▸ hsid
    · exact harr2 x hx

theorem assign_length (arr : List Nat) (adjacency : List (Finset Nat))
    (boundary_ids : Finset Nat) :
    (_assign_boundary_vertices arr adjacency boundary_ids).length = arr.length := by
  unfold _assign_boundary_vertices
  refine foldl_length_preserved _ _ ?_ arr
  intro arr2 v
  dsimp only
  split
  · rfl
  · split
    · rfl
    · exact List.length_set arr2 v _

theorem assign_bound (arr : List Nat) (adjacency : List (Finset Nat))
    (boundary_ids : Finset Nat) (h0 : ∀ x ∈ arr, x ≤ 9) :
    ∀ x ∈ _assign_boundary_vertices arr adjacency boundary_ids, x ≤ 9 := by
  unfold _assign_boundary_vertices
  refine foldl_bound_preserved _ _ ?_ arr h0
  intro arr2 v _ harr2
  exact assign_step_bound adjacency arr2 v harr2

/-- Claim C10 (confirmed): the published label array built by
`_build_segment_ids` has exactly one entry per mesh vertex and every entry
lies in `0..9` (`0` = unassigned), for every surface, segments mapping,
adjacency table, landmark set and geodesic mapping. -/
theorem C10_label_array_shape {K : Type} [LinearOrderedField K]
    (surface : VPolyData K) (segments : List (Nat × Finset Nat))
    (adjacency : List (Finset Nat)) (landmarks : Landmarks K)
    (geodesic_lines : GeoLines K) :
    (_build_segment_ids surface segments adjacency landmarks geodesic_lines).length =
      numberOfPoints surface ∧
    ∀ x ∈ _build_segment_ids surface segments adjacency landmarks geodesic_lines,
      x ≤ 9 := by
  have hwlen : (writeSegments segments
      (List.replicate (numberOfPoints surface) 0)).length = numberOfPoints surface := by
    rw [writeSegments_length, List.length_replicate]
  have hwbound : ∀ x ∈ writeSegments segments
      (List.replicate (numberOfPoints surface) 0), x ≤ 9 := by
    refine writeSegments_bound _ _ ?_
    intro x hx
    rw [List.eq_of_mem_replicate hx]
    omega
  unfold _build_segment_ids
  rcases hB : _collect_boundary_ids surface landmarks geodesic_lines
      (geoKeys geodesic_lines) with _ | b
  · exact ⟨hwlen, hwbound⟩
  · by_cases hb : b = ∅
    · simp only [hb, if_pos rfl]
      exact ⟨hwlen, hwbound⟩
    · simp only [if_neg hb]
      exact ⟨by rw [assign_length, hwlen], assign_bound _ _ _ hwbound⟩

attribute [local semireducible] Rat.add Rat.mul Rat.sub Rat.inv in
set_option maxRecDepth 1000000 in
set_option maxHeartbeats 4000000 in
/-- Claim C1 (code bug): on the 29-vertex fixture the orchestrator resolves
every region with no error, yet region 9's flood fill contains vertex 9 even
though region 1 already claimed it — in the source, region 9's call passes
`blocked_ids=None` (its computed union of regions 1–8 is dead code) and
regions 7 and 8 omit region 5 from their blocked unions, so the cumulative
blocking the spec asserts does not hold; only the first-wins labelling of
the published array survives (vertex 9 keeps label 1, vertex 10 keeps
label 3 against region 9's claim). -/
theorem C1_region9_flood_not_blocked :
    (segmentsAndError 100 mesh29 landmarks29 geo29).2.1 = none ∧
    9 ∈ segGet (segmentsAndError 100 mesh29 landmarks29 geo29).1 9 ∧
    9 ∈ segGet (segmentsAndError 100 mesh29 landmarks29 geo29).1 1 ∧
    (compute_segment_ids 100 (some mesh29) landmarks29 geo29).1 =
      some [0, 0, 0, 0, 0, 0, 0, 0, 0, 1, 3, 0, 2, 0, 8, 0, 4, 0, 7, 0,
        0, 0, 0, 0, 0, 0, 0, 0, 6] := by
  decide

theorem filter_not_isEmpty_of_all_false {α : Type} (l : List α) (p : α → Bool)
    (h : l.all p = false) : (l.filter (fun x => ! p x)).isEmpty = false := by
  rcases List.all_eq_false.mp h with ⟨x, hx, hpx⟩
  have hpf : p x = false := eq_false_of_ne_true hpx
  have hmem : x ∈ l.filter (fun x => ! p x) := List.mem_filter.mpr ⟨hx, by simp [hpf]⟩
  rcases hf : l.filter (fun x => ! p x) with _ | ⟨y, ys⟩
  · rw [hf] at hmem
    exact absurd hmem (List.not_mem_nil x)
  · rfl

theorem lookup_append_single (l : List (Nat × Finset Nat)) (k j : Nat) (v : Finset Nat)
    (hj : j ≠ k) : (l ++ [(k, v)]).lookup j = l.lookup j := by
  induction l with
  | nil =>
    have hb : (j == k) = false := beq_eq_false_iff_ne.mpr hj
    simp [List.lookup, hb]
  | cons p ps ih =>
    rcases p with ⟨a, b⟩
    simp only [List.cons_append, List.lookup]
    split
    · rfl
    · exact ih

theorem addSeg_lookup_ne (segments : List (Nat × Finset Nat)) (k j : Nat)
    (s : Option (Finset Nat)) (hj : j ≠ k) :
    (addSeg segments k s).lookup j = segments.lookup j := by
  rcases s with _ | s
  · rfl
  · show List.lookup j (if s = ∅ then segments else segments ++ [(k, s)]) = _
    split
    · rfl
    · exact lookup_append_single segments k j s hj

/-- Claim C7 (confirmed): with valid inputs, region 4's required landmarks
present, regions 1–3 resolving without an error message, and at least one of
region 4's boundary geodesics absent from the mapping, the orchestrator
returns the label array built from the region 1–3 sets alone, a diagnostic
naming exactly region 4's missing boundary dependencies, and a segments
dictionary with no entry for any region beyond 3 — regions 5–9 are never
attempted. -/
theorem C7_region4_missing_dep_early_return {K : Type} [LinearOrderedField K]
    (fuel : Nat) (surface : VPolyData K) (landmarks : Landmarks K)
    (geodesic_lines : GeoLines K)
    (s1 s2 s3 : Option (Finset Nat)) (d1 d2 d3 : Option DebugPoints)
    (hlm : ["A", "B", "C", "D", "E", "F"].all (fun k => hasLm landmarks k) = true)
    (hAB : ["AB_anterior", "AB_posterior"].all (hasGeo geodesic_lines) = true)
    (hCD : ["CD_anterior", "CD_posterior"].all (hasGeo geodesic_lines) = true)
    (hreq : ["A", "B", "C", "D", "E", "F", "H", "I"].all
      (fun k => hasLm landmarks k) = true)
    (hmiss : ["AC", "AF", "CE", "EF_aniso"].all (hasGeo geodesic_lines) = false)
    (h1 : compute_segment_with_fallback fuel surface (_build_point_adjacency surface)
      landmarks geodesic_lines 1 (seg1_deps geodesic_lines) "D" "A" none none
      false true = (s1, none, d1))
    (h2 : compute_segment_with_fallback fuel surface (_build_point_adjacency surface)
      landmarks geodesic_lines 2 (seg2_deps geodesic_lines) "A" "C"
      ((addSeg [] 1 s1).lookup 1) none false true = (s2, none, d2))
    (h3 : compute_segment_with_fallback fuel surface (_build_point_adjacency surface)
      landmarks geodesic_lines 3 ["AB_posterior", "CD_posterior", "AC", "BD"] "E" "C"
      (optOfSet (unionSegs (addSeg (addSeg [] 1 s1) 2 s2) [1, 2])) none
      false true = (s3, none, d3)) :
    compute_segment_ids fuel (some surface) landmarks geodesic_lines =
      (some (_build_segment_ids surface
          (addSeg (addSeg (addSeg [] 1 s1) 2 s2) 3 s3)
          (_build_point_adjacency surface) landmarks geodesic_lines),
       some ("Segment 4 skipped: missing boundary geodesics (" ++
         String.intercalate ", "
           (["AC", "AF", "CE", "EF_aniso"].filter
             (fun key => ! hasGeo geodesic_lines key)) ++ ")"),
       some (availableDebug surface geodesic_lines ["AC", "AF", "CE", "EF_aniso"])) ∧
    ∀ k, 4 ≤ k →
      (addSeg (addSeg (addSeg [] 1 s1) 2 s2) 3 s3).lookup k = none := by
  have hlook : ∀ k, 4 ≤ k →
      (addSeg (addSeg (addSeg [] 1 s1) 2 s2) 3 s3).lookup k = none := by
    intro k hk
    rw [addSeg_lookup_ne _ _ _ _ (by omega), addSeg_lookup_ne _ _ _ _ (by omega),
      addSeg_lookup_ne _ _ _ _ (by omega)]
    rfl
  have hempty : (["AC", "AF", "CE", "EF_aniso"].filter
      (fun key => ! hasGeo geodesic_lines key)).isEmpty = false :=
    filter_not_isEmpty_of_all_false _ _ hmiss
  have h4 : compute_segment_with_fallback fuel surface (_build_point_adjacency surface)
      landmarks geodesic_lines 4 ["AC", "AF", "CE", "EF_aniso"] "H" "C"
      (optOfSet (unionSegs (addSeg (addSeg (addSeg [] 1 s1) 2 s2) 3 s3) [1, 2, 3]))
      (some ["A", "B", "C", "D", "E", "F", "H", "I"]) true true =
      (none, some ("Segment 4 skipped: missing boundary geodesics (" ++
         String.intercalate ", "
           (["AC", "AF", "CE", "EF_aniso"].filter
             (fun key => ! hasGeo geodesic_lines key)) ++ ")"),
       some (availableDebug surface geodesic_lines ["AC", "AF", "CE", "EF_aniso"])) := by
    unfold compute_segment_with_fallback
    simp only [hreq, hmiss, hempty, Bool.not_true, Bool.false_eq_true, if_false, if_true]
    rfl
  have hseq : segmentsAndError fuel surface landmarks geodesic_lines =
      (addSeg (addSeg (addSeg [] 1 s1) 2 s2) 3 s3,
       some ("Segment 4 skipped: missing boundary geodesics (" ++
         String.intercalate ", "
           (["AC", "AF", "CE", "EF_aniso"].filter
             (fun key => ! hasGeo geodesic_lines key)) ++ ")"),
       some (availableDebug surface geodesic_lines ["AC", "AF", "CE", "EF_aniso"])) := by
    unfold segmentsAndError
    dsimp only
    rw [h1]
    dsimp only
    rw [h2]
    dsimp only
    rw [h3]
    dsimp only
    rw [h4]
  refine ⟨?_, hlook⟩
  unfold compute_segment_ids
  simp only [hlm, hAB, hCD, Bool.not_true, if_false]
  rw [hseq]
  simp only [Bool.false_eq_true, if_false]

attribute [local semireducible] Rat.add Rat.mul Rat.sub Rat.inv in
set_option maxRecDepth 1000000 in
set_option maxHeartbeats 4000000 in
/-- Concrete run of the region-4 early-return theorem: on the 29-vertex mesh
with `EF_aniso` removed from the stored geodesics, regions 1–3 resolve to
`{9}`, `{12}`, `{10}` and the orchestrator stops at region 4 with the message
naming `EF_aniso`. -/
theorem C7_region4_missing_dep_early_return_witness :
    (compute_segment_ids 100 (some mesh29) landmarks29 geo29noEF =
      (some (_build_segment_ids mesh29
          (addSeg (addSeg (addSeg [] 1 (some {9})) 2 (some {12})) 3 (some {10}))
          (_build_point_adjacency mesh29) landmarks29 geo29noEF),
       some ("Segment 4 skipped: missing boundary geodesics (" ++
         String.intercalate ", "
           (["AC", "AF", "CE", "EF_aniso"].filter
             (fun key => ! hasGeo geo29noEF key)) ++ ")"),
       some (availableDebug mesh29 geo29noEF ["AC", "AF", "CE", "EF_aniso"]))) ∧
    ∀ k, 4 ≤ k →
      (addSeg (addSeg (addSeg [] 1 (some {9})) 2 (some {12})) 3
        (some {10})).lookup k = none :=
  C7_region4_missing_dep_early_return 100 mesh29 landmarks29 geo29noEF
    (some {9}) (some {12}) (some {10}) none none none
    (by decide) (by decide) (by decide) (by decide) (by decide)
    (by decide) (by decide) (by decide)

theorem mem_insertAsc (a x : Nat) : ∀ l : List Nat, x ∈ insertAsc a l ↔ x = a ∨ x ∈ l := by
  intro l
  induction l with
  | nil => simp [insertAsc]
  | cons b bs ih =>
    by_cases hab : a ≤ b
    · simp [insertAsc, hab]
    · simp only [insertAsc, hab, if_false, List.mem_cons, ih]
      tauto

theorem mem_sortAsc (s : Finset Nat) (x : Nat) : x ∈ sortAsc s ↔ x ∈ s := by
  unfold sortAsc
  have h : ∀ m : Multiset Nat, x ∈ Multiset.foldr insertAsc [] m ↔ x ∈ m := by
    intro m
    induction m using Multiset.induction_on with
    | empty => simp
    | cons a t ih => rw [Multiset.foldr_cons, mem_insertAsc, Multiset.mem_cons, ih]
  exact (h s.val).trans (Iff.symm Finset.mem_def)

theorem getD_set_ne {α : Type} : ∀ (l : List α) (n i : Nat) (v d : α), i ≠ n →
    (l.set n v).getD i d = l.getD i d := by
  intro l
  induction l with
  | nil => intro n i v d _; rfl
  | cons a as ih =>
    intro n i v d h
    cases n with
    | zero =>
      cases i with
      | zero => exact absurd rfl h
      | succ j => rfl
    | succ m =>
      cases i with
      | zero => rfl
      | succ j => exact ih m j v d (fun hh => h (by rw [hh]))

theorem getD_set_self_of_lt {α : Type} : ∀ (l : List α) (n : Nat) (v d : α),
    n < l.length → (l.set n v).getD n d = v := by
  intro l
  induction l with
  | nil => intro n v d h; exact absurd h (by simp)
  | cons a as ih =>
    intro n v d h
    cases n with
    | zero => rfl
    | succ m => exact ih m v d (by simpa using h)

theorem set_of_length_le {α : Type} : ∀ (l : List α) (n : Nat) (v : α),
    l.length ≤ n → l.set n v = l := by
  intro l
  induction l with
  | nil => intro n v _; rfl
  | cons a as ih =>
    intro n v h
    cases n with
    | zero => exact absurd h (by simp)
    | succ m =>
      simp only [List.set]
      rw [ih m v (by simpa using h)]

theorem getD_replicate_neg1 : ∀ n i : Nat, (List.replicate n (-1 : Int)).getD i (-1) = -1 := by
  intro n
  induction n with
  | zero => intro i; rfl
  | succ m ih =>
    intro i
    cases i with
    | zero => rfl
    | succ j => exact ih j

theorem prevInv_replicate (adjacency : List (Finset Nat)) (n : Nat) :
    PrevInv adjacency (List.replicate n (-1 : Int)) :=
  fun i => Or.inl (getD_replicate_neg1 n i)

theorem relax_prevInv {K : Type} [LinearOrderedField K] (adjacency : List (Finset Nat))
    (w : Nat → Nat → Option K) (current : Nat) (cd : K)
    (st : List (WithTop K) × List Int × List (K × Nat)) (neighbor : Nat)
    (hn : neighbor ∈ adjacency.getD current ∅)
    (hinv : PrevInv adjacency st.2.1) :
    PrevInv adjacency (relax w current cd st neighbor).2.1 := by
  unfold relax
  rcases hw : w current neighbor with _ | weight
  · exact hinv
  · dsimp only
    split
    · intro i
      by_cases hi : i = neighbor
      · subst hi
        by_cases hlen : i < st.2.1.length
        · exact Or.inr ⟨current, getD_set_self_of_lt _ _ _ _ hlen, hn⟩
        · rw [set_of_length_le _ _ _ (le_of_not_lt hlen)]
          exact hinv i
      · rw [getD_set_ne _ _ _ _ _ hi]
        exact hinv i
    · exact hinv

theorem foldl_relax_prevInv {K : Type} [LinearOrderedField K] (adjacency : List (Finset Nat))
    (w : Nat → Nat → Option K) (current : Nat) (cd : K) :
    ∀ (l : List Nat) (st : List (WithTop K) × List Int × List (K × Nat)),
      (∀ n ∈ l, n ∈ adjacency.getD current ∅) →
      PrevInv adjacency st.2.1 →
      PrevInv adjacency (l.foldl (relax w current cd) st).2.1 := by
  intro l
  induction l with
  | nil => intro st _ hinv; exact hinv
  | cons n ns ih =>
    intro st hl hinv
    rw [List.foldl_cons]
    exact ih _ (fun m hm => hl m (List.mem_cons_of_mem _ hm))
      (relax_prevInv adjacency w current cd st n (hl n (List.mem_cons_self _ _)) hinv)

theorem dijkstra_loop_prevInv {K : Type} [LinearOrderedField K]
    (adjacency : List (Finset Nat)) (w : Nat → Nat → Option K) (end_id : Nat) :
    ∀ (fuel : Nat) (dist : List (WithTop K)) (prev : List Int) (heap : List (K × Nat))
      (dp : List (WithTop K) × List Int),
      PrevInv adjacency prev →
      dijkstra_loop adjacency w end_id fuel dist prev heap = some dp →
      PrevInv adjacency dp.2 := by
  intro fuel
  induction fuel with
  | zero =>
    intro dist prev heap dp hinv h
    unfold dijkstra_loop at h
    rcases hm : heapMin heap with _ | e <;> rw [hm] at h
    · injection h with h
      rw [← h]
      exact hinv
    · exact Option.noConfusion h
  | succ f ih =>
    intro dist prev heap dp hinv h
    unfold dijkstra_loop at h
    rcases hm : heapMin heap with _ | e <;> rw [hm] at h
    · injection h with h
      rw [← h]
      exact hinv
    · dsimp only at h
      split at h
      · exact ih _ _ _ dp hinv h
      · split at h
        · injection h with h
          rw [← h]
          exact hinv
        · refine ih _ _ _ dp ?_ h
          exact foldl_relax_prevInv adjacency w e.2 e.1 (nbrsList adjacency e.2)
            (dist, prev, heap.erase e)
            (fun n hn => (mem_sortAsc (adjacency.getD e.2 ∅) n).mp hn) hinv

theorem reconstruct_path_chain (adjacency : List (Finset Nat)) (prev : List Int)
    (start_id : Nat) (hinv : PrevInv adjacency prev) :
    ∀ (fuel : Nat) (current : Int) (acc path : List Nat),
      reconstruct_path prev start_id fuel current acc = some path →
      List.Chain' (fun x y => x ∈ adjacency.getD y ∅) acc →
      (∀ l ∈ acc.getLast?, prev.getD l (-1) = current) →
      List.Chain' (fun x y => x ∈ adjacency.getD y ∅) path ∧
      ((current = -1 ∧ path = acc) ∨ ∃ tail, path = acc ++ current.toNat :: tail) := by
  intro fuel
  induction fuel with
  | zero =>
    intro current acc path h _ _
    exact Option.noConfusion h
  | succ f ih =>
    intro current acc path h hchain hlast
    rw [reconstruct_path] at h
    split at h
    · injection h with h
      subst h
      refine ⟨hchain, Or.inl ⟨?_, rfl⟩⟩
      assumption
    · rename_i hcur
      dsimp only at h
      have hchain' :
          List.Chain' (fun x y => x ∈ adjacency.getD y ∅) (acc ++ [current.toNat]) := by
        rw [List.chain'_append]
        refine ⟨hchain, List.chain'_singleton _, ?_⟩
        intro x hx y hy
        have hpx : prev.getD x (-1) = current := hlast x hx
        rcases hinv x with h0 | ⟨c, hc, hmem⟩
        · rw [h0] at hpx
          exact absurd hpx.symm hcur
        · rw [hc] at hpx
          have hy' : y = current.toNat := by
            simp only [List.head?_cons, Option.mem_def, Option.some.injEq] at hy
            omega
          have hct : current.toNat = c := by omega
          rw [hy', hct]
          exact hmem
      split at h
      · injection h with h
        subst h
        exact ⟨hchain', Or.inr ⟨[], rfl⟩⟩
      · have hlast' : ∀ l ∈ (acc ++ [current.toNat]).getLast?,
            prev.getD l (-1) = prev.getD current.toNat (-1) := by
          intro l hl
          simp only [List.getLast?_concat, Option.mem_def, Option.some.injEq] at hl
          rw [hl]
        rcases ih (prev.getD current.toNat (-1)) (acc ++ [current.toNat]) path h
            hchain' hlast' with ⟨hcp, hdisj⟩
        refine ⟨hcp, Or.inr ?_⟩
        rcases hdisj with ⟨_, rfl⟩ | ⟨tail, htail⟩
        · exact ⟨[], rfl⟩
        · exact ⟨(prev.getD current.toNat (-1)).toNat :: tail, by simp [htail]⟩

/-- Claim C8 (confirmed): whenever the anisotropic search returns a path, the
returned vertex-id sequence starts at the start vertex, ends at the end
vertex, and every consecutive pair of its vertices is adjacent in the
vertex-adjacency graph built by `_build_point_adjacency`. -/
theorem C8_path_endpoints_and_adjacency {K : Type} [LinearOrderedField K]
    (sqrtFn : K → K) (fuel : Nat) (surface : VPolyData K) (start_id end_id : Nat)
    (normal : V3 K) (penalty_strength : K) (r : GeodesicResult K)
    (h : compute_anisotropic_geodesic sqrtFn fuel surface start_id end_id normal
      penalty_strength = .ok (some r)) :
    r.point_ids.head? = some start_id ∧ r.point_ids.getLast? = some end_id ∧
    List.Chain' (fun a b => b ∈ (_build_point_adjacency surface).getD a ∅)
      r.point_ids := by
  unfold compute_anisotropic_geodesic at h
  dsimp only at h
  split at h
  · exact absurd h (by simp)
  split at h
  · exact absurd h (by simp)
  split at h
  · exact absurd h (by simp)
  split at h
  · exact absurd h (by simp)
  rename_i dist1 prev1 hD
  split at h
  · exact absurd h (by simp)
  split at h
  · exact absurd h (by simp)
  split at h
  · exact absurd h (by simp)
  rename_i path_ids hR
  split at h
  · exact absurd h (by simp)
  rename_i hlastg
  have hstart : path_ids.getLast? = some start_id := not_not.mp hlastg
  have hr : r.point_ids = path_ids.reverse := by
    simp only [Except.ok.injEq, Option.some.injEq] at h
    rw [← h]
  have hprevinv : PrevInv (_build_point_adjacency surface) prev1 := by
    have := dijkstra_loop_prevInv (_build_point_adjacency surface)
      (anisoWeight sqrtFn surface (normalize sqrtFn normal) penalty_strength) end_id fuel
      ((List.replicate (numberOfPoints surface) (⊤ : WithTop K)).set start_id 0)
      (List.replicate (numberOfPoints surface) (-1 : Int)) [((0 : K), start_id)]
      (dist1, prev1)
      (prevInv_replicate (_build_point_adjacency surface) (numberOfPoints surface)) hD
    exact this
  have hrec := reconstruct_path_chain (_build_point_adjacency surface) prev1 start_id
    hprevinv (numberOfPoints surface + 1) (end_id : Int) [] path_ids hR
    List.chain'_nil (by intro l hl; exact absurd hl (by simp))
  rcases hrec with ⟨hchain, hdisj⟩
  have hhead : path_ids.head? = some end_id := by
    rcases hdisj with ⟨hbad, _⟩ | ⟨tail, htail⟩
    · exact absurd hbad (by omega)
    · rw [htail]
      simp only [List.nil_append, List.head?_cons, Option.some.injEq]
      omega
  refine ⟨?_, ?_, ?_⟩
  · rw [hr, List.head?_reverse, hstart]
  · rw [hr, List.getLast?_reverse, hhead]
  · rw [hr]
    exact List.chain'_reverse.mpr hchain

attribute [local semireducible] Rat.add Rat.mul Rat.sub Rat.inv in
set_option maxRecDepth 1000000 in
/-- Concrete run of the path-shape theorem: on the single-edge surface the
search from vertex 0 to vertex 1 returns the path `[0, 1]`, which starts at
0, ends at 1, and steps along the one edge. -/
theorem C8_path_endpoints_and_adjacency_witness :
    (GeodesicResult.mk [0, 1] (mkPolyline edge2 [0, 1])).point_ids.head? = some 0 ∧
    (GeodesicResult.mk [0, 1] (mkPolyline edge2 [0, 1])).point_ids.getLast? = some 1 ∧
    List.Chain' (fun a b => b ∈ (_build_point_adjacency edge2).getD a ∅)
      (GeodesicResult.mk [0, 1] (mkPolyline edge2 [0, 1])).point_ids :=
  C8_path_endpoints_and_adjacency (id : ℚ → ℚ) 10 edge2 0 1 (0, 0, 0) 0
    (GeodesicResult.mk [0, 1] (mkPolyline edge2 [0, 1])) (by decide)

theorem getD_replicate {α : Type} (a : α) : ∀ n i : Nat, (List.replicate n a).getD i a = a := by
  intro n
  induction n with
  | zero => intro i; rfl
  | succ m ih =>
    intro i
    cases i with
    | zero => rfl
    | succ j => exact ih j

theorem relax_congr {K : Type} [LinearOrderedField K]
    (w1 w2 : Nat → Nat → Option K) (current : Nat) (cd : K)
    (st : List (WithTop K) × List Int × List (K × Nat)) (neighbor : Nat)
    (hw : w1 current neighbor = w2 current neighbor) :
    relax w1 current cd st neighbor = relax w2 current cd st neighbor := by
  unfold relax
  rw [hw]

theorem foldl_relax_congr {K : Type} [LinearOrderedField K]
    (w1 w2 : Nat → Nat → Option K) (current : Nat) (cd : K) :
    ∀ (l : List Nat) (st : List (WithTop K) × List Int × List (K × Nat)),
      (∀ n ∈ l, w1 current n = w2 current n) →
      l.foldl (relax w1 current cd) st = l.foldl (relax w2 current cd) st := by
  intro l
  induction l with
  | nil => intro st _; rfl
  | cons n ns ih =>
    intro st hl
    rw [List.foldl_cons, List.foldl_cons,
      relax_congr w1 w2 current cd st n (hl n (List.mem_cons_self _ _))]
    exact ih _ (fun m hm => hl m (List.mem_cons_of_mem _ hm))

theorem dijkstra_loop_congr {K : Type} [LinearOrderedField K]
    (adjacency : List (Finset Nat)) (w1 w2 : Nat → Nat → Option K) (end_id : Nat)
    (hw : ∀ a b, b ∈ adjacency.getD a ∅ → w1 a b = w2 a b) :
    ∀ (fuel : Nat) (dist : List (WithTop K)) (prev : List Int) (heap : List (K × Nat)),
      dijkstra_loop adjacency w1 end_id fuel dist prev heap =
        dijkstra_loop adjacency w2 end_id fuel dist prev heap := by
  intro fuel
  induction fuel with
  | zero => intro dist prev heap; rfl
  | succ f ih =>
    intro dist prev heap
    unfold dijkstra_loop
    rcases hm : heapMin heap with _ | e
    · rfl
    · dsimp only
      by_cases hstale : (e.1 : WithTop K) ≠ dist.getD e.2 ⊤
      · simp only [if_pos hstale]
        exact ih _ _ _
      · simp only [if_neg hstale]
        by_cases hend : e.2 = end_id
        · simp only [if_pos hend]
        · simp only [if_neg hend]
          rw [foldl_relax_congr w1 w2 e.2 e.1 (nbrsList adjacency e.2)
            (dist, prev, heap.erase e)
            (fun n hn => hw e.2 n ((mem_sortAsc (adjacency.getD e.2 ∅) n).mp hn))]
          exact ih _ _ _

theorem relax_dijInv {K : Type} [LinearOrderedField K] (start_id : Nat)
    (w : Nat → Nat → Option K) (current : Nat) (cd : K)
    (st : List (WithTop K) × List Int × List (K × Nat)) (neighbor : Nat)
    (hw : ∀ wt, w current neighbor = some wt → 0 < wt)
    (hcd : st.1.getD current ⊤ ≤ (cd : WithTop K))
    (hinv : DijInv start_id st.1 st.2.1) :
    DijInv start_id (relax w current cd st neighbor).1
      (relax w current cd st neighbor).2.1 ∧
    (relax w current cd st neighbor).1.getD current ⊤ ≤ (cd : WithTop K) := by
  obtain ⟨hlen, hcompl, hps⟩ := hinv
  unfold relax
  rcases hwv : w current neighbor with _ | wt
  · exact ⟨⟨hlen, hcompl, hps⟩, hcd⟩
  · dsimp only
    split
    · rename_i hlt
      have hwpos : 0 < wt := hw wt hwv
      have hne_cur : neighbor ≠ current := by
        intro hEq
        subst hEq
        have h2 : cd + wt < cd := WithTop.coe_lt_coe.mp (lt_of_lt_of_le hlt hcd)
        linarith
      by_cases hrange : neighbor < st.1.length
      · have hrange2 : neighbor < st.2.1.length := hlen ▸ hrange
        have hdn : (st.1.set neighbor ((cd + wt : K) : WithTop K)).getD neighbor ⊤ =
            ((cd + wt : K) : WithTop K) := getD_set_self_of_lt _ _ _ _ hrange
        have hpn : (st.2.1.set neighbor (current : Int)).getD neighbor (-1) =
            (current : Int) := getD_set_self_of_lt _ _ _ _ hrange2
        have hdv : ∀ v : Nat, v ≠ neighbor →
            (st.1.set neighbor ((cd + wt : K) : WithTop K)).getD v ⊤ = st.1.getD v ⊤ :=
          fun v hv => getD_set_ne _ _ _ _ _ hv
        have hpv : ∀ v : Nat, v ≠ neighbor →
            (st.2.1.set neighbor (current : Int)).getD v (-1) = st.2.1.getD v (-1) :=
          fun v hv => getD_set_ne _ _ _ _ _ hv
        refine ⟨⟨?_, ?_, ?_⟩, ?_⟩
        · simp [hlen]
        · intro v hv
          by_cases hvn : v = neighbor
          · subst hvn
            rw [hdn, hpn]
            constructor
            · intro hT
              exact absurd hT (WithTop.coe_ne_top)
            · intro hI
              exact absurd hI (by omega)
          · rw [hdv v hvn, hpv v hvn]
            exact hcompl v hv
        · intro v
          by_cases hvn : v = neighbor
          · subst hvn
            refine Or.inr ⟨current, hpn, ?_⟩
            rw [hdn, hdv current (fun h => hne_cur h.symm)]
            calc st.1.getD current ⊤ ≤ (cd : WithTop K) := hcd
              _ < ((cd + wt : K) : WithTop K) := by
                  rw [WithTop.coe_lt_coe]
                  linarith
          · rw [hpv v hvn, hdv v hvn]
            rcases hps v with h0 | ⟨c, hc, hclt⟩
            · exact Or.inl h0
            · refine Or.inr ⟨c, hc, ?_⟩
              by_cases hcn : c = neighbor
              · subst hcn
                rw [hdn]
                exact lt_trans hlt hclt
              · rw [hdv c hcn]
                exact hclt
        · rw [hdv current (fun h => hne_cur h.symm)]
          exact hcd
      · have hge : st.1.length ≤ neighbor := le_of_not_lt hrange
        rw [set_of_length_le _ _ _ hge, set_of_length_le _ _ _ (hlen ▸ hge)]
        exact ⟨⟨hlen, hcompl, hps⟩, hcd⟩
    · exact ⟨⟨hlen, hcompl, hps⟩, hcd⟩

theorem foldl_relax_dijInv {K : Type} [LinearOrderedField K] (start_id : Nat)
    (w : Nat → Nat → Option K) (current : Nat) (cd : K) :
    ∀ (l : List Nat) (st : List (WithTop K) × List Int × List (K × Nat)),
      (∀ n ∈ l, ∀ wt, w current n = some wt → 0 < wt) →
      st.1.getD current ⊤ ≤ (cd : WithTop K) →
      DijInv start_id st.1 st.2.1 →
      DijInv start_id (l.foldl (relax w current cd) st).1
        (l.foldl (relax w current cd) st).2.1 := by
  intro l
  induction l with
  | nil => intro st _ _ hinv; exact hinv
  | cons n ns ih =>
    intro st hl hcd hinv
    rw [List.foldl_cons]
    obtain ⟨hinv', hcd'⟩ :=
      relax_dijInv start_id w current cd st n (hl n (List.mem_cons_self _ _)) hcd hinv
    exact ih _ (fun m hm => hl m (List.mem_cons_of_mem _ hm)) hcd' hinv'

theorem dijkstra_loop_dijInv {K : Type} [LinearOrderedField K]
    (adjacency : List (Finset Nat)) (w : Nat → Nat → Option K) (end_id start_id : Nat)
    (hw : ∀ a b, b ∈ adjacency.getD a ∅ → ∀ wt, w a b = some wt → 0 < wt) :
    ∀ (fuel : Nat) (dist : List (WithTop K)) (prev : List Int) (heap : List (K × Nat))
      (dp : List (WithTop K) × List Int),
      DijInv start_id dist prev →
      dijkstra_loop adjacency w end_id fuel dist prev heap = some dp →
      DijInv start_id dp.1 dp.2 := by
  intro fuel
  induction fuel with
  | zero =>
    intro dist prev heap dp hinv h
    unfold dijkstra_loop at h
    rcases hm : heapMin heap with _ | e <;> rw [hm] at h
    · injection h with h
      rw [← h]
      exact hinv
    · exact Option.noConfusion h
  | succ f ih =>
    intro dist prev heap dp hinv h
    unfold dijkstra_loop at h
    rcases hm : heapMin heap with _ | e <;> rw [hm] at h
    · injection h with h
      rw [← h]
      exact hinv
    · dsimp only at h
      split at h
      · exact ih _ _ _ dp hinv h
      · rename_i hstale
        split at h
        · injection h with h
          rw [← h]
          exact hinv
        · refine ih _ _ _ dp ?_ h
          refine foldl_relax_dijInv start_id w e.2 e.1 (nbrsList adjacency e.2)
            (dist, prev, heap.erase e)
            (fun n hn => hw e.2 n ((mem_sortAsc (adjacency.getD e.2 ∅) n).mp hn))
            ?_ hinv
          exact le_of_eq (not_not.mp hstale).symm

theorem dijInv_init {K : Type} [LinearOrderedField K] (start_id n : Nat) :
    DijInv start_id ((List.replicate n (⊤ : WithTop K)).set start_id 0)
      (List.replicate n (-1 : Int)) := by
  refine ⟨by simp, ?_, ?_⟩
  · intro v hv
    rw [getD_set_ne _ _ _ _ _ hv, getD_replicate, getD_replicate_neg1]
    exact iff_of_true rfl rfl
  · intro v
    exact Or.inl (getD_replicate_neg1 n v)

theorem reconstruct_last {K : Type} [LinearOrderedField K] (dist : List (WithTop K))
    (prev : List Int) (start_id : Nat)
    (hcompl : ∀ v : Nat, v ≠ start_id → (dist.getD v ⊤ = ⊤ ↔ prev.getD v (-1) = -1))
    (hps : ∀ v : Nat, prev.getD v (-1) = -1 ∨
      ∃ c : Nat, prev.getD v (-1) = (c : Int) ∧ dist.getD c ⊤ < dist.getD v ⊤) :
    ∀ (fuel : Nat) (c : Nat) (acc path : List Nat),
      dist.getD c ⊤ ≠ ⊤ →
      reconstruct_path prev start_id fuel (c : Int) acc = some path →
      path.getLast? = some start_id := by
  intro fuel
  induction fuel with
  | zero =>
    intro c acc path _ h
    exact Option.noConfusion h
  | succ f ih =>
    intro c acc path hne h
    rw [reconstruct_path] at h
    rw [if_neg (by omega)] at h
    dsimp only at h
    simp only [Int.toNat_natCast] at h
    by_cases hcs : c = start_id
    · subst hcs
      rw [if_pos rfl] at h
      injection h with h
      subst h
      rw [List.getLast?_concat]
    · rw [if_neg (by omega)] at h
      rcases hps c with h0 | ⟨c', hc', hlt⟩
      · exact absurd ((hcompl c hcs).mpr h0) hne
      · rw [hc'] at h
        exact ih c' (acc ++ [c]) path (ne_top_of_lt hlt) h

theorem anisoWeight_degenerate {K : Type} [LinearOrderedField K] (sqrtFn : K → K)
    (surface : VPolyData K) (un : V3 K) (penalty_strength : K)
    (hdeg : penalty_strength = 0 ∨ un = ((0 : K), 0, 0))
    (a b : Nat) (hpos : 0 < euclLength sqrtFn surface a b) :
    anisoWeight sqrtFn surface un penalty_strength a b =
      some (euclLength sqrtFn surface a b) := by
  unfold anisoWeight
  dsimp only
  rw [if_neg (ne_of_gt hpos)]
  by_cases hz : un = ((0 : K), 0, 0)
  · rw [if_pos hz, mul_one]
  · rcases hdeg with h0 | h0
    · subst h0
      rw [if_neg hz]
      simp
    · exact absurd h0 hz

/-- Claim C4 (corrected: the equivalence needs distinct, in-range endpoints —
`start == end` makes the anisotropic search return `None` up front while the
unweighted search returns the one-vertex path — and positive edge lengths,
since the anisotropic search skips zero-length edges that the unweighted
search keeps): with `penalty_strength = 0` or a zero-length
`reference_normal`, the anisotropic search returns exactly the unweighted
search's result, path and polyline included. -/
theorem C4_degenerate_penalty_refines_unweighted {K : Type} [LinearOrderedField K]
    (sqrtFn : K → K) (fuel : Nat) (surface : VPolyData K) (start_id end_id : Nat)
    (normal : V3 K) (penalty_strength : K)
    (hs : start_id < numberOfPoints surface) (he : end_id < numberOfPoints surface)
    (hne : start_id ≠ end_id)
    (hpos : ∀ a : Nat, a < (_build_point_adjacency surface).length →
      ∀ b ∈ (_build_point_adjacency surface).getD a ∅,
        0 < euclLength sqrtFn surface a b)
    (hdeg : penalty_strength = 0 ∨ normalize sqrtFn normal = ((0 : K), 0, 0)) :
    compute_anisotropic_geodesic sqrtFn fuel surface start_id end_id normal
      penalty_strength =
      match shortest_path sqrtFn fuel surface start_id end_id with
      | none => .error .outOfFuel
      | some none => .ok none
      | some (some p) => .ok (some ⟨p, mkPolyline surface p⟩) := by
  have hpos' : ∀ a b : Nat, b ∈ (_build_point_adjacency surface).getD a ∅ →
      0 < euclLength sqrtFn surface a b := by
    intro a b hb
    by_cases ha : a < (_build_point_adjacency surface).length
    · exact hpos a ha b hb
    · rw [List.getD_eq_default _ _ (le_of_not_lt ha)] at hb
      exact absurd hb (Finset.not_mem_empty b)
  have hcong : dijkstra_loop (_build_point_adjacency surface)
      (anisoWeight sqrtFn surface (normalize sqrtFn normal) penalty_strength) end_id fuel
      ((List.replicate (numberOfPoints surface) (⊤ : WithTop K)).set start_id 0)
      (List.replicate (numberOfPoints surface) (-1 : Int)) [((0 : K), start_id)] =
      dijkstra_loop (_build_point_adjacency surface)
      (fun a b => some (euclLength sqrtFn surface a b)) end_id fuel
      ((List.replicate (numberOfPoints surface) (⊤ : WithTop K)).set start_id 0)
      (List.replicate (numberOfPoints surface) (-1 : Int)) [((0 : K), start_id)] :=
    dijkstra_loop_congr _ _ _ end_id
      (fun a b hb => anisoWeight_degenerate sqrtFn surface _ _ hdeg a b (hpos' a b hb))
      fuel _ _ _
  rcases hL : dijkstra_loop (_build_point_adjacency surface)
      (fun a b => some (euclLength sqrtFn surface a b)) end_id fuel
      ((List.replicate (numberOfPoints surface) (⊤ : WithTop K)).set start_id 0)
      (List.replicate (numberOfPoints surface) (-1 : Int)) [((0 : K), start_id)]
    with _ | dp
  · have hsp : shortest_path sqrtFn fuel surface start_id end_id = none := by
      unfold shortest_path
      dsimp only
      rw [hL]
    rw [hsp]
    unfold compute_anisotropic_geodesic
    dsimp only
    rw [if_neg (by omega), if_neg hne, if_neg (by omega), hcong, hL]
  · rcases dp with ⟨dist1, prev1⟩
    have hinv : DijInv start_id dist1 prev1 :=
      dijkstra_loop_dijInv (_build_point_adjacency surface)
        (fun a b => some (euclLength sqrtFn surface a b)) end_id start_id
        (fun a b hb wt hwt => by
          injection hwt with hwt
          rw [← hwt]
          exact hpos' a b hb)
        fuel _ _ _ (dist1, prev1) (dijInv_init start_id (numberOfPoints surface)) hL
    obtain ⟨hlen1, hcompl1, hps1⟩ := hinv
    by_cases hT : dist1.getD end_id ⊤ = ⊤
    · have hsp : shortest_path sqrtFn fuel surface start_id end_id = some none := by
        unfold shortest_path
        dsimp only
        rw [hL]
        dsimp only
        rw [if_pos hT]
      rw [hsp]
      unfold compute_anisotropic_geodesic
      dsimp only
      rw [if_neg (by omega), if_neg hne, if_neg (by omega), hcong, hL]
      dsimp only
      rw [if_neg (by omega), if_pos ((hcompl1 end_id (Ne.symm hne)).mp hT)]
    · have hprevne : prev1.getD end_id (-1) ≠ -1 :=
        fun h => hT ((hcompl1 end_id (Ne.symm hne)).mpr h)
      rcases hR : reconstruct_path prev1 start_id (numberOfPoints surface + 1)
          (end_id : Int) [] with _ | path
      · have hsp : shortest_path sqrtFn fuel surface start_id end_id = none := by
          unfold shortest_path
          dsimp only
          rw [hL]
          dsimp only
          rw [if_neg hT, hR]
        rw [hsp]
        unfold compute_anisotropic_geodesic
        dsimp only
        rw [if_neg (by omega), if_neg hne, if_neg (by omega), hcong, hL]
        dsimp only
        rw [if_neg (by omega), if_neg hprevne, hR]
      · have hlast : path.getLast? = some start_id :=
          reconstruct_last dist1 prev1 start_id hcompl1 hps1 _ end_id [] path hT hR
        have hsp : shortest_path sqrtFn fuel surface start_id end_id =
            some (some path.reverse) := by
          unfold shortest_path
          dsimp only
          rw [hL]
          dsimp only
          rw [if_neg hT, hR]
        rw [hsp]
        unfold compute_anisotropic_geodesic
        dsimp only
        rw [if_neg (by omega), if_neg hne, if_neg (by omega), hcong, hL]
        dsimp only
        rw [if_neg (by omega), if_neg hprevne, hR]
        dsimp only
        rw [if_neg (not_not.mpr hlast)]

attribute [local semireducible] Rat.add Rat.mul Rat.sub Rat.inv in
set_option maxRecDepth 1000000 in
/-- Concrete run of the degenerate-penalty refinement: on the single-edge
surface with a zero reference normal and penalty strength 5, the anisotropic
search agrees with the unweighted search between vertices 0 and 1. -/
theorem C4_degenerate_penalty_refines_unweighted_witness :
    compute_anisotropic_geodesic (id : ℚ → ℚ) 10 edge2 0 1 ((0 : ℚ), 0, 0) 5 =
      match shortest_path (id : ℚ → ℚ) 10 edge2 0 1 with
      | none => .error .outOfFuel
      | some none => .ok none
      | some (some p) => .ok (some ⟨p, mkPolyline edge2 p⟩) :=
  C4_degenerate_penalty_refines_unweighted (id : ℚ → ℚ) 10 edge2 0 1 ((0 : ℚ), 0, 0) 5
    (by decide) (by decide) (by decide) (by decide) (Or.inr (by decide))

attribute [local semireducible] Rat.add Rat.mul Rat.sub Rat.inv in
set_option maxRecDepth 1000000 in
/-- The divergence forcing the correction of the equivalence claim: on a
one-vertex surface with `start == end == 0`, the anisotropic search answers
`None` from its `start_id == end_id` guard while the spec's unweighted search
returns the one-vertex path `[0]`. -/
theorem C4_start_eq_end_counterexample :
    compute_anisotropic_geodesic (id : ℚ → ℚ) 10 onePt 0 0 ((0 : ℚ), 0, 0) 0 =
      .ok none ∧
    shortest_path (id : ℚ → ℚ) 10 onePt 0 0 = some (some [0]) := by
  decide

theorem foldl_union_distrib {β : Type} (g : Finset Nat → β → Finset Nat)
    (hg : ∀ acc b, g acc b = acc ∪ g ∅ b) :
    ∀ (l : List β) (acc : Finset Nat), l.foldl g acc = acc ∪ l.foldl g ∅ := by
  intro l
  induction l with
  | nil => intro acc; simp
  | cons b bs ih =>
    intro acc
    rw [List.foldl_cons, List.foldl_cons, ih (g acc b), ih (g ∅ b), hg acc b,
      Finset.union_assoc]

theorem pairSamples_union {K : Type} [LinearOrderedField K] (surface : VPolyData K)
    (acc : Finset Nat) (p0 p1 : V3 K) :
    pairSamples surface acc p0 p1 = acc ∪ pairSamples surface ∅ p0 p1 := by
  unfold pairSamples
  dsimp only
  ext x
  simp only [Finset.mem_insert, Finset.mem_union, Finset.not_mem_empty, or_false]
  tauto

set_option maxHeartbeats 1000000 in
theorem cellSamples_union {K : Type} [LinearOrderedField K] (surface : VPolyData K)
    (pts : List (V3 K)) (cell : List Nat) (acc : Finset Nat) :
    cellSamples surface pts cell acc = acc ∪ cellSamples surface pts cell ∅ := by
  unfold cellSamples
  apply foldl_union_distrib
  intro acc2 pr
  exact pairSamples_union surface acc2 (pts.getD pr.1 (0, 0, 0)) (pts.getD pr.2 (0, 0, 0))

theorem foldlM_union_perm {β : Type} (step : Finset Nat → β → Option (Finset Nat))
    (hdist : ∀ (k : β) (acc : Finset Nat), step acc k =
      match step ∅ k with
      | none => none
      | some s => some (acc ∪ s)) :
    ∀ (l1 l2 : List β), l1.Perm l2 →
      ∀ acc : Finset Nat, l1.foldlM step acc = l2.foldlM step acc := by
  intro l1 l2 hperm
  induction hperm with
  | nil => intro acc; rfl
  | cons x h ih =>
    intro acc
    rw [List.foldlM_cons, List.foldlM_cons]
    rcases hx : step acc x with _ | a
    · rfl
    · exact ih a
  | swap x y l =>
    intro acc
    rw [List.foldlM_cons, List.foldlM_cons, hdist y acc, hdist x acc]
    rcases hY : step ∅ y with _ | sy <;> rcases hX : step ∅ x with _ | sx
    · rfl
    · show (none : Option (Finset Nat)) = List.foldlM step (acc ∪ sx) (y :: l)
      rw [List.foldlM_cons, hdist y (acc ∪ sx), hY]
      rfl
    · show List.foldlM step (acc ∪ sy) (x :: l) = (none : Option (Finset Nat))
      rw [List.foldlM_cons, hdist x (acc ∪ sy), hX]
      rfl
    · show List.foldlM step (acc ∪ sy) (x :: l) = List.foldlM step (acc ∪ sx) (y :: l)
      rw [List.foldlM_cons, List.foldlM_cons, hdist x (acc ∪ sy), hX,
        hdist y (acc ∪ sx), hY]
      show List.foldlM step (acc ∪ sy ∪ sx) l = List.foldlM step (acc ∪ sx ∪ sy) l
      rw [Finset.union_right_comm]
  | trans h1 h2 ih1 ih2 =>
    intro acc
    exact (ih1 acc).trans (ih2 acc)

theorem collect_boundary_ids_perm {K : Type} [LinearOrderedField K] (surface : VPolyData K)
    (landmarks : Landmarks K) (geodesic_lines : GeoLines K) (keys1 keys2 : List String)
    (hperm : keys1.Perm keys2) :
    _collect_boundary_ids surface landmarks geodesic_lines keys1 =
      _collect_boundary_ids surface landmarks geodesic_lines keys2 := by
  unfold _collect_boundary_ids
  refine foldlM_union_perm _ ?_ keys1 keys2 hperm ∅
  intro k acc
  rcases hk : lookupGeo geodesic_lines k with _ | pl
  · rfl
  · dsimp only
    rcases hp : pl.pts with _ | pts
    · rfl
    · dsimp only
      rw [foldl_union_distrib (fun acc cell => cellSamples surface pts cell acc)
        (fun acc2 cell => cellSamples_union surface pts cell acc2) pl.lines acc]

theorem hasGeo_congr {K : Type} (g1 g2 : GeoLines K)
    (hgeo : ∀ k, lookupGeo g1 k = lookupGeo g2 k) : hasGeo g1 = hasGeo g2 := by
  funext k
  unfold hasGeo
  rw [hgeo k]

theorem hasLm_congr {K : Type} (lm1 lm2 : Landmarks K)
    (hlm : ∀ k, lookupLm lm1 k = lookupLm lm2 k) : hasLm lm1 = hasLm lm2 := by
  funext k
  unfold hasLm
  rw [hlm k]

theorem lmPoint_congr {K : Type} [LinearOrderedField K] (lm1 lm2 : Landmarks K)
    (hlm : ∀ k, lookupLm lm1 k = lookupLm lm2 k) : lmPoint lm1 = lmPoint lm2 := by
  funext k
  unfold lmPoint
  rw [hlm k]

theorem boundary_ids_congr {K : Type} [LinearOrderedField K] (surface : VPolyData K)
    (lm1 lm2 : Landmarks K) (g1 g2 : GeoLines K)
    (hgeo : ∀ k, lookupGeo g1 k = lookupGeo g2 k) :
    _collect_boundary_ids surface lm1 g1 = _collect_boundary_ids surface lm2 g2 := by
  have hgeoF : lookupGeo g1 = lookupGeo g2 := funext hgeo
  funext keys
  unfold _collect_boundary_ids
  rw [hgeoF]

theorem available_ids_congr {K : Type} [LinearOrderedField K] (surface : VPolyData K)
    (g1 g2 : GeoLines K) (hgeo : ∀ k, lookupGeo g1 k = lookupGeo g2 k) :
    _collect_available_boundary_ids surface g1 =
      _collect_available_boundary_ids surface g2 := by
  have hgeoF : lookupGeo g1 = lookupGeo g2 := funext hgeo
  funext keys
  unfold _collect_available_boundary_ids
  rw [hgeoF]

theorem fallback_candidates_congr {K : Type} [LinearOrderedField K]
    (lm1 lm2 : Landmarks K) (hlm : ∀ k, lookupLm lm1 k = lookupLm lm2 k) :
    _seed_fallback_candidates lm1 = _seed_fallback_candidates lm2 := by
  have hlmF : lookupLm lm1 = lookupLm lm2 := funext hlm
  funext seed_key opposite_key
  unfold _seed_fallback_candidates
  rw [hlmF]

theorem segment_component_congr {K : Type} [LinearOrderedField K] (fuel : Nat)
    (surface : VPolyData K) (adjacency : List (Finset Nat))
    (lm1 lm2 : Landmarks K) (g1 g2 : GeoLines K)
    (hlm : ∀ k, lookupLm lm1 k = lookupLm lm2 k)
    (hgeo : ∀ k, lookupGeo g1 k = lookupGeo g2 k) :
    _collect_segment_component fuel surface adjacency lm1 g1 =
      _collect_segment_component fuel surface adjacency lm2 g2 := by
  funext boundary_keys opposite_key seed_key blocked_ids seed_point
  unfold _collect_segment_component
  rw [boundary_ids_congr surface lm1 lm2 g1 g2 hgeo, lmPoint_congr lm1 lm2 hlm]

theorem diagnose_congr {K : Type} [LinearOrderedField K] (fuel segment_id : Nat)
    (surface : VPolyData K) (adjacency : List (Finset Nat))
    (lm1 lm2 : Landmarks K) (g1 g2 : GeoLines K)
    (hlm : ∀ k, lookupLm lm1 k = lookupLm lm2 k)
    (hgeo : ∀ k, lookupGeo g1 k = lookupGeo g2 k) :
    _diagnose_segment_failure fuel segment_id surface adjacency lm1 g1 =
      _diagnose_segment_failure fuel segment_id surface adjacency lm2 g2 := by
  funext boundary_keys opposite_key seed_key blocked_ids seed_point
  unfold _diagnose_segment_failure
  rw [boundary_ids_congr surface lm1 lm2 g1 g2 hgeo, lmPoint_congr lm1 lm2 hlm]

theorem failure_debug_congr {K : Type} [LinearOrderedField K] (fuel : Nat)
    (surface : VPolyData K) (adjacency : List (Finset Nat))
    (lm1 lm2 : Landmarks K) (g1 g2 : GeoLines K)
    (hlm : ∀ k, lookupLm lm1 k = lookupLm lm2 k)
    (hgeo : ∀ k, lookupGeo g1 k = lookupGeo g2 k) :
    _collect_failure_debug fuel surface adjacency lm1 g1 =
      _collect_failure_debug fuel surface adjacency lm2 g2 := by
  funext boundary_keys opposite_key seed_key blocked_ids seed_point
  unfold _collect_failure_debug
  rw [boundary_ids_congr surface lm1 lm2 g1 g2 hgeo, lmPoint_congr lm1 lm2 hlm]

theorem availableDebug_congr {K : Type} [LinearOrderedField K] (surface : VPolyData K)
    (g1 g2 : GeoLines K) (hgeo : ∀ k, lookupGeo g1 k = lookupGeo g2 k) :
    availableDebug surface g1 = availableDebug surface g2 := by
  funext deps
  unfold availableDebug
  rw [available_ids_congr surface g1 g2 hgeo]

theorem with_fallback_congr {K : Type} [LinearOrderedField K] (fuel : Nat)
    (surface : VPolyData K) (adjacency : List (Finset Nat))
    (lm1 lm2 : Landmarks K) (g1 g2 : GeoLines K)
    (hlm : ∀ k, lookupLm lm1 k = lookupLm lm2 k)
    (hgeo : ∀ k, lookupGeo g1 k = lookupGeo g2 k) :
    compute_segment_with_fallback fuel surface adjacency lm1 g1 =
      compute_segment_with_fallback fuel surface adjacency lm2 g2 := by
  have hgeoF : lookupGeo g1 = lookupGeo g2 := funext hgeo
  funext seg_id deps opposite_key seed_key blocked_ids required_landmarks
    allow_fallback report_missing_deps
  unfold compute_segment_with_fallback
  rw [hasLm_congr lm1 lm2 hlm, hasGeo_congr g1 g2 hgeo, hgeoF,
    segment_component_congr fuel surface adjacency lm1 lm2 g1 g2 hlm hgeo,
    fallback_candidates_congr lm1 lm2 hlm,
    failure_debug_congr fuel surface adjacency lm1 lm2 g1 g2 hlm hgeo,
    diagnose_congr fuel seg_id surface adjacency lm1 lm2 g1 g2 hlm hgeo,
    availableDebug_congr surface g1 g2 hgeo]

theorem seg1_deps_congr {K : Type} (g1 g2 : GeoLines K)
    (hgeo : ∀ k, lookupGeo g1 k = lookupGeo g2 k) : seg1_deps g1 = seg1_deps g2 := by
  unfold seg1_deps
  rw [hasGeo_congr g1 g2 hgeo]

theorem seg2_deps_congr {K : Type} (g1 g2 : GeoLines K)
    (hgeo : ∀ k, lookupGeo g1 k = lookupGeo g2 k) : seg2_deps g1 = seg2_deps g2 := by
  unfold seg2_deps
  rw [hasGeo_congr g1 g2 hgeo]

theorem seg5_deps_congr {K : Type} (g1 g2 : GeoLines K)
    (hgeo : ∀ k, lookupGeo g1 k = lookupGeo g2 k) : seg5_deps g1 = seg5_deps g2 := by
  unfold seg5_deps
  rw [hasGeo_congr g1 g2 hgeo]

theorem seg6_deps_congr {K : Type} (g1 g2 : GeoLines K)
    (hgeo : ∀ k, lookupGeo g1 k = lookupGeo g2 k) : seg6_deps g1 = seg6_deps g2 := by
  unfold seg6_deps
  rw [hasGeo_congr g1 g2 hgeo]

theorem segmentsAndError_congr {K : Type} [LinearOrderedField K] (fuel : Nat)
    (surface : VPolyData K) (lm1 lm2 : Landmarks K) (g1 g2 : GeoLines K)
    (hlm : ∀ k, lookupLm lm1 k = lookupLm lm2 k)
    (hgeo : ∀ k, lookupGeo g1 k = lookupGeo g2 k) :
    segmentsAndError fuel surface lm1 g1 = segmentsAndError fuel surface lm2 g2 := by
  unfold segmentsAndError
  dsimp only
  rw [with_fallback_congr fuel surface (_build_point_adjacency surface) lm1 lm2 g1 g2
      hlm hgeo,
    seg1_deps_congr g1 g2 hgeo, seg2_deps_congr g1 g2 hgeo,
    seg5_deps_congr g1 g2 hgeo, seg6_deps_congr g1 g2 hgeo]

theorem build_segment_ids_congr {K : Type} [LinearOrderedField K] (surface : VPolyData K)
    (segments : List (Nat × Finset Nat)) (adjacency : List (Finset Nat))
    (lm1 lm2 : Landmarks K) (g1 g2 : GeoLines K)
    (hgeo : ∀ k, lookupGeo g1 k = lookupGeo g2 k)
    (hkeys : (geoKeys g1).Perm (geoKeys g2)) :
    _build_segment_ids surface segments adjacency lm1 g1 =
      _build_segment_ids surface segments adjacency lm2 g2 := by
  unfold _build_segment_ids
  dsimp only
  rw [boundary_ids_congr surface lm1 lm2 g1 g2 hgeo,
    collect_boundary_ids_perm surface lm2 g2 (geoKeys g1) (geoKeys g2) hkeys]

/-- Claim C3 (corrected: the idempotence half holds — the orchestrator's
result is a value of its inputs' values alone, so two calls whose mesh is
unchanged and whose landmark and geodesic dictionaries hold equal values
(even as different objects, with any insertion order of the same keys)
return the same label array, message and debug record.  The caching half is
false of the code: `compute_segment_ids` has no changed-set and rebuilds the
label array from the current inputs unconditionally on every call, so the
array can change even when no region's vertex set changed — see the
counterexample, where an added stored polyline that no region depends on
changes the published array through the boundary-healing pass). -/
theorem C3_orchestrator_value_determined {K : Type} [LinearOrderedField K] (fuel : Nat)
    (surface : Option (VPolyData K)) (lm1 lm2 : Landmarks K) (g1 g2 : GeoLines K)
    (hlm : ∀ k, lookupLm lm1 k = lookupLm lm2 k)
    (hgeo : ∀ k, lookupGeo g1 k = lookupGeo g2 k)
    (hkeys : (geoKeys g1).Perm (geoKeys g2)) :
    compute_segment_ids fuel surface lm1 g1 = compute_segment_ids fuel surface lm2 g2 := by
  rcases surface with _ | surface
  · rfl
  · unfold compute_segment_ids
    dsimp only
    rw [hasLm_congr lm1 lm2 hlm, hasGeo_congr g1 g2 hgeo,
      segmentsAndError_congr fuel surface lm1 lm2 g1 g2 hlm hgeo,
      build_segment_ids_congr surface
        ((segmentsAndError fuel surface lm2 g2).1) (_build_point_adjacency surface)
        lm1 lm2 g1 g2 hgeo hkeys]

/-- Concrete run of the determinism theorem: identical landmarks and two
stored-geodesic dictionaries holding equal values in reversed insertion order
produce identical orchestrator output. -/
theorem C3_orchestrator_value_determined_witness :
    compute_segment_ids 3 (some twoPts) [("A", xpt 0)]
        [("AB_anterior", wallLine 0), ("AB_posterior", wallLine 1)] =
      compute_segment_ids 3 (some twoPts) [("A", xpt 0)]
        [("AB_posterior", wallLine 1), ("AB_anterior", wallLine 0)] :=
  C3_orchestrator_value_determined 3 (some twoPts) _ _ _ _
    (fun _ => rfl)
    (by
      intro k
      show List.lookup k _ = List.lookup k _
      by_cases h1 : k = "AB_anterior"
      · subst h1
        rfl
      · by_cases h2 : k = "AB_posterior"
        · subst h2
          rfl
        · have b1 : (k == "AB_anterior") = false := beq_eq_false_iff_ne.mpr h1
          have b2 : (k == "AB_posterior") = false := beq_eq_false_iff_ne.mpr h2
          simp [List.lookup, b1, b2])
    (by decide)

attribute [local semireducible] Rat.add Rat.mul Rat.sub Rat.inv in
set_option maxRecDepth 1000000 in
set_option maxHeartbeats 8000000 in
/-- Counterexample for C3 as stated: between these two calls no region
changed — the whole per-region outcome (`segmentsAndError`) is value-equal,
down to every region's vertex set — yet the published label arrays differ
(the added stored polyline `"ZZ"` puts vertex 27 into the boundary-healing
pass, which labels it 2 from its healed neighbour 11).  The label array is
therefore not "returned unmodified when no region changed": it is rebuilt
from the current inputs on every call. -/
theorem C3_unconditional_rebuild_counterexample :
    segmentsAndError 100 mesh29heal landmarks29 geo29 =
      segmentsAndError 100 mesh29heal landmarks29 geo29ZZ ∧
    (compute_segment_ids 100 (some mesh29heal) landmarks29 geo29).1 ≠
      (compute_segment_ids 100 (some mesh29heal) landmarks29 geo29ZZ).1 := by
  decide
